import Mathlib

/-!
# Minetest client: packet codec, connection engine and handshake handler

A shallow embedding of `packet/packet.go`, `packet/client_init.go`,
`client.go` and `client_handler.go`.

Conventions of the embedding.

* A byte and a `uint16` are natural numbers; conversions that truncate in Go
  (`byte(x)`, the two halves written by `PutUint16`) are written with an
  explicit `% 256`.
* A Go slice of bytes is a `List Nat`; a slice field that may be `nil` is an
  `Option (List Nat)`.
* A Go function body that can panic at run time (index or slice bound out of
  range, method call on a nil interface, explicit `panic`) is a function into
  `Go α := Option α`, where `none` is the panic.
* A Go `(value, error)` result is a pair with an `Option String` (the error
  message, `none` for `nil`), or an `Except String` when the value is `nil`
  on error.
* Declarations that the sources use but that are declared in files outside the
  embedded ones (the protocol constants, the command registry, the SRP
  library, the transport) are fields of the parameter structures `Env`,
  `World` and `ClientDeps`.
-/

namespace Minetest

/-! ## Run-time model -/

/-- Outcome of running a Go function body: `none` is a run-time panic. -/
abbrev Go (α : Type) := Option α

/-- Go conversion `byte(x)` of an unsigned integer: the low eight bits. -/
def byte (x : Nat) : Nat := x % 256

/-- Go conversion `byte(x)` of a signed `int`: the low eight bits of the
two's complement representation. -/
def byteOfInt (x : Int) : Nat := (x % 256).toNat

/-- Go `make([]byte, n)`: `n` zero bytes. -/
def make (n : Nat) : List Nat := List.replicate n 0

/-- Go `copy(dst, src)`: overwrites the first `min(len(dst), len(src))`
elements of `dst`. -/
def copy (dst src : List Nat) : List Nat :=
  src.take dst.length ++ dst.drop src.length

/-- Go slice expression `data[k:]`: panics when `k > len(data)`. -/
def sliceFrom (data : List Nat) (k : Nat) : Go (List Nat) :=
  if k ≤ data.length then some (data.drop k) else none

/-- Go index expression `data[i]`: panics when `i ≥ len(data)`. -/
def index (data : List Nat) (i : Nat) : Go Nat := data[i]?

/-- Go assignment `b[i] = v`: panics when `i ≥ len(b)`. -/
def setIndex (b : List Nat) (i v : Nat) : Go (List Nat) :=
  if i < b.length then some (b.set i v) else none

/-- The function `binary.BigEndian.Uint16(b)`: reads `b[0]` and `b[1]`,
panics when `len(b) < 2`. -/
def Uint16 (b : List Nat) : Go Nat :=
  match b with
  | b0 :: b1 :: _ => some (b1 + b0 * 256)
  | _ => none

/-- The call `binary.BigEndian.PutUint16(b[off:], v)` seen on the slice `b`
that shares the backing array: writes `byte(v >> 8)` at `off` and `byte(v)`
at `off + 1`, panics when fewer than two bytes are left. -/
def PutUint16 (b : List Nat) (off v : Nat) : Go (List Nat) :=
  if off + 2 ≤ b.length then
    some ((b.set off (byte (v / 256))).set (off + 1) (byte v))
  else none

/-! ## Data model -/

/-- The struct `packet.ClientInit` (packet/client_init.go). -/
structure ClientInit where
  ClientMax : Int
  SupportedCompressionModes : Nat
  MinNetProtoVersion : Nat
  MaxNetProtoVersion : Nat
  PlayerName : List Nat
  deriving DecidableEq, Repr

/-- The command values the embedded sources construct or inspect, by dynamic
type; `Other` stands for every command type of the registry that the embedded
sources do not name. -/
inductive Command where
  | ClientInit (c : Minetest.ClientInit)
  | ClientPeerInit
  | ClientInit2
  | ClientSRPBytesA (BytesA : List Nat)
  | ClientFirstSRP (Salt VerificationKey : List Nat)
  | ClientSRPBytesM (BytesM : List Nat)
  | ServerHello (AuthMechanismSRP AuthMechanismFirstSRP : Bool)
  | ServerSRPBytesSB (BytesS BytesB : List Nat)
  | ServerSetPeer (PeerID : Nat)
  | ServerAuthAccept
  | Other (tag : Nat) (body : List Nat)
  deriving DecidableEq, Repr

/-- The struct `packet.SplitPayload`. -/
structure SplitPayload where
  SeqNr : Nat
  ChunkCount : Nat
  ChunkNumber : Nat
  Data : List Nat
  deriving DecidableEq, Repr

/-- The struct `packet.Packet`; `Command` and `SplitPayload` are `none` for
a nil interface and a nil pointer, `Payload` is `none` for a nil slice. -/
structure Packet where
  Command : Option Command
  PacketType : Nat
  SubType : Nat
  ControlType : Nat
  PeerID : Nat
  SeqNr : Nat
  Channel : Nat
  Payload : Option (List Nat)
  CommandID : Nat
  SplitPayload : Option SplitPayload
  deriving DecidableEq, Repr

/-- The Go zero value `Packet{}`. -/
def Packet.zero : Packet :=
  { Command := none, PacketType := 0, SubType := 0, ControlType := 0, PeerID := 0,
    SeqNr := 0, Channel := 0, Payload := none, CommandID := 0, SplitPayload := none }

/-- Declarations of package `packet` and `commands` that the embedded files
use and that are declared elsewhere: the protocol marker, the packet type and
control type codes, the command identifiers the handler compares with, the
methods `GetCommandId` and `MarshalPacket` of the command types other than
`ClientInit`, and the registry function `CreateCommand`. -/
structure Env where
  ProtocolID : List Nat
  Control : Nat
  Original : Nat
  Split : Nat
  Reliable : Nat
  Ack : Nat
  SetPeerID : Nat
  Ping : Nat
  Disco : Nat
  ServerCommandHello : Nat
  ServerCommandAuthAccept : Nat
  ServerCommandSRPBytesSB : Nat
  GetCommandId : Command → Nat
  MarshalCommand : Command → Except String (List Nat)
  CreateCommand : Nat → List Nat → Option Command × Option String

/-- What the specification fixes about the missing constants: the marker is
four bytes, and the codes of one enumeration are distinct bytes. -/
structure Env.WF (E : Env) : Prop where
  marker_len : E.ProtocolID.length = 4
  marker_bytes : ∀ b ∈ E.ProtocolID, b < 256
  types_distinct : [E.Control, E.Original, E.Split, E.Reliable].Nodup
  types_bytes : ∀ t ∈ [E.Control, E.Original, E.Split, E.Reliable], t < 256
  controls_distinct : [E.Ack, E.SetPeerID, E.Ping, E.Disco].Nodup
  controls_bytes : ∀ t ∈ [E.Ack, E.SetPeerID, E.Ping, E.Disco], t < 256
  ids_distinct :
    [E.ServerCommandHello, E.ServerCommandAuthAccept, E.ServerCommandSRPBytesSB].Nodup

/-! ## packet/client_init.go -/

/-- The method `(*ClientInit).MarshalPacket`. -/
def ClientInit.MarshalPacket (p : ClientInit) : Go (List Nat × Option String) := do
  let packet := make (1 + 2 + 2 + 2)
  let packet := packet ++ [byteOfInt p.ClientMax]
  let packet ← PutUint16 packet 0 p.SupportedCompressionModes
  let packet ← PutUint16 packet 0 p.MinNetProtoVersion
  let packet ← PutUint16 packet 0 p.MaxNetProtoVersion
  let packet := packet ++ [0, byte p.PlayerName.length]
  let packet := packet ++ p.PlayerName
  pure (packet, none)

/-- The method `(*ClientInit).UnmarshalPacket`: ignores its argument and
leaves the receiver as it is. -/
def ClientInit.UnmarshalPacket (p : ClientInit) (_data : List Nat) : ClientInit × Option String :=
  (p, none)

/-! ## packet/packet.go -/

/-- Method call `cmd.GetCommandId()` on the interface value. -/
def Command.GetCommandId (E : Env) (cmd : Command) : Nat := E.GetCommandId cmd

/-- Method call `cmd.MarshalPacket()` on the interface value: the method of
`ClientInit` is the embedded one, the others are those of `Env`. -/
def Command.MarshalPacket (E : Env) (cmd : Command) : Go (Except String (List Nat)) :=
  match cmd with
  | Command.ClientInit c => do
    let r ← c.MarshalPacket
    match r.2 with
    | some e => pure (Except.error e)
    | none => pure (Except.ok r.1)
  | c => pure (E.MarshalCommand c)

/-- The function `packet.CreateReliable`. -/
def CreateReliable (E : Env) (peerId seqNr : Nat) (command : Command) : Packet :=
  { Packet.zero with
    PacketType := E.Reliable, SubType := E.Original, Command := some command,
    PeerID := peerId, SeqNr := seqNr, Channel := 1 }

/-- The function `packet.CreateOriginal`. -/
def CreateOriginal (E : Env) (peerId seqNr : Nat) (command : Command) : Packet :=
  { Packet.zero with
    PacketType := E.Original, Command := some command,
    PeerID := peerId, SeqNr := seqNr, Channel := 1 }

/-- The function `packet.CreateControl`. -/
def CreateControl (E : Env) (peerId seqNr controlType : Nat) : Packet :=
  { Packet.zero with
    PacketType := E.Control, ControlType := controlType,
    PeerID := peerId, SeqNr := seqNr }

/-- The function `packet.CreatePacket`. -/
def CreatePacket (packetType subType peerId seqNr : Nat) (command : Command) : Packet :=
  { Packet.zero with
    PacketType := packetType, SubType := subType, Command := some command,
    PeerID := peerId, SeqNr := seqNr }

/-- The method `(*Packet).MarshalPacket`. -/
def Packet.MarshalPacket (E : Env) (p : Packet) : Go (Except String (List Nat)) := do
  let packet := make (4 + 2 + 1 + 1)
  let packet := copy packet E.ProtocolID
  let packet ← PutUint16 packet 4 p.PeerID
  let packet ← setIndex packet 6 p.Channel
  let packet ← setIndex packet 7 (byte p.PacketType)
  if p.PacketType = E.Reliable then
    let bytes := make 5
    let bytes ← PutUint16 bytes 0 p.SeqNr
    let bytes ← setIndex bytes 2 (byte p.SubType)
    let cmd ← p.Command
    let bytes ← PutUint16 bytes 3 (cmd.GetCommandId E)
    let packet := packet ++ bytes
    match ← cmd.MarshalPacket E with
    | Except.error err => pure (Except.error err)
    | Except.ok payload => pure (Except.ok (packet ++ payload))
  else if p.PacketType = E.Control then
    let bytes := make 3
    let bytes ← setIndex bytes 0 (byte p.ControlType)
    let bytes ← PutUint16 bytes 1 p.SeqNr
    pure (Except.ok (packet ++ bytes))
  else if p.PacketType = E.Original then
    let bytes := make 2
    let cmd ← p.Command
    let bytes ← PutUint16 bytes 0 (cmd.GetCommandId E)
    let packet := packet ++ bytes
    match ← cmd.MarshalPacket E with
    | Except.error err => pure (Except.error err)
    | Except.ok payload => pure (Except.ok (packet ++ payload))
  else
    pure (Except.ok packet)

/-- The loop `for i, sig := range ProtocolID` of `UnmarshalPacket`, from
index `i` on: `some (some msg)` is the early `return errors.New(msg)`,
`some none` is falling out of the loop, `none` is `data[i]` out of range. -/
def checkProtocolID (sigs data : List Nat) (i : Nat) : Go (Option String) :=
  match sigs with
  | [] => some none
  | sig :: rest =>
    match index data i with
    | none => none
    | some d =>
      if d ≠ sig then some (some "invalid protocol_id")
      else checkProtocolID rest data (i + 1)

/-- The arm `case Control:` of the switch on the sub-type in `UnmarshalPacket`. -/
def unmarshalControl (E : Env) (p : Packet) (data : List Nat) : Go (Packet × Option String) := do
  let ct ← index data 11
  let p := { p with ControlType := ct }
  if p.ControlType = E.SetPeerID then
    let b ← sliceFrom data 12
    let v ← Uint16 b
    pure ({ p with PeerID := v }, none)
  else
    pure (p, none)

/-- The arm `case Split:` of the switch on the sub-type in `UnmarshalPacket`. -/
def unmarshalSplit (p : Packet) (data : List Nat) : Go (Packet × Option String) := do
  let spl : Minetest.SplitPayload := { SeqNr := 0, ChunkCount := 0, ChunkNumber := 0, Data := [] }
  let b ← sliceFrom data 11
  let v ← Uint16 b
  let spl := { spl with SeqNr := v }
  let b ← sliceFrom data 13
  let v ← Uint16 b
  let spl := { spl with ChunkCount := v }
  let b ← sliceFrom data 15
  let v ← Uint16 b
  let spl := { spl with ChunkNumber := v }
  let b ← sliceFrom data 17
  let spl := { spl with Data := b }
  pure ({ p with SplitPayload := some spl }, none)

/-- The arm `default:` of the switch on the sub-type in `UnmarshalPacket`. -/
def unmarshalDefault (E : Env) (p : Packet) (data : List Nat) : Go (Packet × Option String) := do
  let b ← sliceFrom data 11
  let v ← Uint16 b
  let p := { p with CommandID := v }
  let b ← sliceFrom data 13
  let p := { p with Payload := some b }
  let r := E.CreateCommand p.CommandID b
  pure ({ p with Command := r.1 }, r.2)

/-- The body of `if p.PacketType == Reliable` in `UnmarshalPacket`. -/
def unmarshalReliable (E : Env) (p : Packet) (data : List Nat) : Go (Packet × Option String) := do
  let b ← sliceFrom data 8
  let v ← Uint16 b
  let p := { p with SeqNr := v }
  let st ← index data 10
  let p := { p with SubType := st }
  if p.SubType = E.Control then unmarshalControl E p data
  else if p.SubType = E.Split then unmarshalSplit p data
  else unmarshalDefault E p data

/-- The method `(*Packet).UnmarshalPacket`: the receiver after the call and
the returned error. -/
def Packet.UnmarshalPacket (E : Env) (p : Packet) (data : List Nat) :
    Go (Packet × Option String) :=
  if data.length < 5 then
    pure (p, some "invalid packet length")
  else do
    match ← checkProtocolID E.ProtocolID data 0 with
    | some msg => pure (p, some msg)
    | none =>
      let b ← sliceFrom data 4
      let v ← Uint16 b
      let p := { p with PeerID := v }
      let ch ← index data 6
      let p := { p with Channel := ch }
      let pt ← index data 7
      let p := { p with PacketType := pt }
      if p.PacketType = E.Reliable then unmarshalReliable E p data
      else pure (p, none)

/-- The function `packet.Parse`: a fresh `Packet{}` filled by
`UnmarshalPacket`, returned together with the error. -/
def Parse (E : Env) (data : List Nat) : Go (Packet × Option String) :=
  Packet.zero.UnmarshalPacket E data

/-- A reference instance of the missing declarations, with the constants of
the Minetest network protocol (marker `4f 45 74 03`, packet types
Control 0 / Original 1 / Split 2 / Reliable 3, control types Ack 0 /
SetPeerID 1 / Ping 2 / Disco 3), used to evaluate the embedded functions on
concrete inputs. The registry knows the greeting (`0x02`, two flag bytes),
and reports every other identifier as unknown. -/
def refEnv : Env where
  ProtocolID := [0x4f, 0x45, 0x74, 0x03]
  Control := 0
  Original := 1
  Split := 2
  Reliable := 3
  Ack := 0
  SetPeerID := 1
  Ping := 2
  Disco := 3
  ServerCommandHello := 0x02
  ServerCommandAuthAccept := 0x03
  ServerCommandSRPBytesSB := 0x60
  GetCommandId := fun c =>
    match c with
    | Command.ClientInit _ => 0x02
    | Command.ClientPeerInit => 0x00
    | Command.ClientInit2 => 0x11
    | Command.ClientSRPBytesA _ => 0x51
    | Command.ClientFirstSRP _ _ => 0x50
    | Command.ClientSRPBytesM _ => 0x52
    | Command.ServerHello _ _ => 0x02
    | Command.ServerSRPBytesSB _ _ => 0x60
    | Command.ServerSetPeer _ => 0x01
    | Command.ServerAuthAccept => 0x03
    | Command.Other tag _ => tag
  MarshalCommand := fun c =>
    match c with
    | Command.ServerHello a b => Except.ok [if a then 1 else 0, if b then 1 else 0]
    | Command.Other _ body => Except.ok body
    | Command.ClientSRPBytesA a => Except.ok a
    | _ => Except.ok []
  CreateCommand := fun id payload =>
    if id = 0x02 then
      match payload with
      | [a, b] => (some (Command.ServerHello (a != 0) (b != 0)), none)
      | _ => (none, some "invalid payload")
    else (none, some "unknown command")

/-- The envelope layout of the specification: the four marker bytes, the peer
id as two bytes big-endian, the channel byte and the packet type byte. -/
def header (E : Env) (p : Packet) : List Nat :=
  E.ProtocolID ++ [p.PeerID / 256, p.PeerID % 256, p.Channel, p.PacketType]

/-! ## client_handler.go -/

/-- The struct `ClientHandler`; the field `client` is the connection the
handler sends through, whose behaviour is given by a `World`. -/
structure ClientHandler where
  Username : List Nat
  Password : List Nat
  peerID : Nat
  SRPPubA : List Nat
  SRPPrivA : List Nat
  deriving DecidableEq, Repr

/-- What a run of `OnPacketReceive` does to the outside, in program order:
calls of `ch.client.Send`, calls of the SRP library, and the start of the
goroutine that sends the deferred client-init. -/
inductive Effect where
  | Send (p : Packet)
  | GoDeferredInit
  | InitiateHandshake
  | NewClient (username password : List Nat)
  | CompleteHandshake (pubA privA identifier passphrase bytesS bytesB : List Nat)
  | ClientProof (identifier bytesS pubA bytesB clientK : List Nat)
  deriving DecidableEq, Repr

/-- The collaborators of the handler that are outside the embedded files:
the result of `ch.client.Send(p)` (an encoding or transport error, as a
function of what the run did before), and the functions of package `srp` with
their Go result tuples. -/
structure World where
  Send : List Effect → Packet → Option String
  InitiateHandshake : List Nat × List Nat × Option String
  NewClient : List Nat → List Nat → List Nat × List Nat × Option String
  CompleteHandshake :
    List Nat → List Nat → List Nat → List Nat → List Nat → List Nat → List Nat × Option String
  ClientProof : List Nat → List Nat → List Nat → List Nat → List Nat → List Nat

/-- A run of the handler so far: the handler fields, the effects in program
order, and the panic value when the run has panicked. -/
structure Run where
  ch : ClientHandler
  trace : List Effect
  panicked : Option String
  deriving DecidableEq, Repr

/-- Sequencing: the statements after a panic are not executed. -/
def Run.andThen (r : Run) (k : Run → Run) : Run :=
  match r.panicked with
  | some _ => r
  | none => k r

/-- The statement pair `err := ch.client.Send(p); if err != nil { panic(err) }`. -/
def sendOrPanic (W : World) (p : Packet) (r : Run) : Run :=
  { r with trace := r.trace ++ [Effect.Send p], panicked := W.Send r.trace p }

/-- The function `NewClientInit` (packet/client_init.go). -/
def NewClientInit (playername : List Nat) : ClientInit :=
  { ClientMax := 28, SupportedCompressionModes := 0, MinNetProtoVersion := 37,
    MaxNetProtoVersion := 39, PlayerName := playername }

/-- The block `if hello_cmd.AuthMechanismSRP { ... }` of `OnPacketReceive`. -/
def helloSRP (W : World) (E : Env) (r : Run) : Run :=
  let res := W.InitiateHandshake
  let r := { r with
    ch := { r.ch with SRPPubA := res.1, SRPPrivA := res.2.1 },
    trace := r.trace ++ [Effect.InitiateHandshake] }
  match res.2.2 with
  | some err => { r with panicked := some err }
  | none =>
    sendOrPanic W (CreateReliable E r.ch.peerID 0 (Command.ClientSRPBytesA r.ch.SRPPubA)) r

/-- The block `if hello_cmd.AuthMechanismFirstSRP { ... }` of `OnPacketReceive`. -/
def helloFirstSRP (W : World) (E : Env) (r : Run) : Run :=
  let res := W.NewClient r.ch.Username r.ch.Password
  let r := { r with trace := r.trace ++ [Effect.NewClient r.ch.Username r.ch.Password] }
  match res.2.2 with
  | some err => { r with panicked := some err }
  | none =>
    sendOrPanic W (CreateReliable E r.ch.peerID 0 (Command.ClientFirstSRP res.1 res.2.1)) r

/-- The block `if p.CommandID == commands.ServerCommandHello { ... }`. -/
def onHello (W : World) (E : Env) (p : Packet) (r : Run) : Run :=
  if p.CommandID = E.ServerCommandHello then
    match p.Command with
    | some (Command.ServerHello authSRP authFirstSRP) =>
      (if authSRP then helloSRP W E r else r).andThen fun r =>
        if authFirstSRP then helloFirstSRP W E r else r
    | _ => { r with panicked := some "invalid type" }
  else r

/-- The block `if p.CommandID == commands.ServerCommandSRPBytesSB { ... }`. -/
def onSRPBytesSB (W : World) (E : Env) (p : Packet) (r : Run) : Run :=
  if p.CommandID = E.ServerCommandSRPBytesSB then
    match p.Command with
    | some (Command.ServerSRPBytesSB bytesS bytesB) =>
      let identifier := r.ch.Username
      let passphrase := r.ch.Password
      let res := W.CompleteHandshake r.ch.SRPPubA r.ch.SRPPrivA identifier passphrase bytesS bytesB
      let r := { r with trace := r.trace ++
        [Effect.CompleteHandshake r.ch.SRPPubA r.ch.SRPPrivA identifier passphrase bytesS bytesB] }
      match res.2 with
      | some err => { r with panicked := some err }
      | none =>
        let proof := W.ClientProof identifier bytesS r.ch.SRPPubA bytesB res.1
        let r := { r with trace := r.trace ++
          [Effect.ClientProof identifier bytesS r.ch.SRPPubA bytesB res.1] }
        sendOrPanic W (CreateReliable E r.ch.peerID 0 (Command.ClientSRPBytesM proof)) r
    | _ => { r with panicked := some "invalid type" }
  else r

/-- The block `if p.CommandID == commands.ServerCommandAuthAccept { ... }`. -/
def onAuthAccept (W : World) (E : Env) (p : Packet) (r : Run) : Run :=
  if p.CommandID = E.ServerCommandAuthAccept then
    sendOrPanic W (CreateReliable E r.ch.peerID 0 Command.ClientInit2) r
  else r

/-- The block `if p.ControlType == packet.SetPeerID { ... }`: stores the peer
id and starts the goroutine that, two seconds later, sends the Original
packet `CreateOriginal(ch.peerID, 0, NewClientInit(ch.Username))`. -/
def onSetPeerID (E : Env) (p : Packet) (r : Run) : Run :=
  if p.ControlType = E.SetPeerID then
    { r with ch := { r.ch with peerID := p.PeerID },
             trace := r.trace ++ [Effect.GoDeferredInit] }
  else r

/-- The method `(*ClientHandler).OnPacketReceive`, run on the handler `ch`
with an empty trace. -/
def ClientHandler.OnPacketReceive (W : World) (E : Env) (ch : ClientHandler) (p : Packet) : Run :=
  let r : Run := { ch := ch, trace := [], panicked := none }
  if p.PacketType = E.Reliable then
    let r := onSetPeerID E p r
    (sendOrPanic W (CreateControl E r.ch.peerID p.SeqNr E.Ack) r).andThen fun r =>
      if p.SubType = E.Split then r
      else
        (onHello W E p r).andThen fun r =>
          (onSRPBytesSB W E p r).andThen fun r =>
            onAuthAccept W E p r
  else r

/-- The packets of a trace handed to `Send`, in order. -/
def sentPackets (tr : List Effect) : List Packet :=
  tr.filterMap fun e =>
    match e with
    | Effect.Send p => some p
    | _ => none

/-- A world in which every send succeeds and the SRP library returns fixed
values without error, used to evaluate the handler on concrete inputs. -/
def refWorld : World where
  Send := fun _ _ => none
  InitiateHandshake := ([0xa1, 0xa2], [0x51, 0x52], none)
  NewClient := fun _ _ => ([0x5a], [0x7e], none)
  CompleteHandshake := fun _ _ _ _ _ _ => ([0x4b], none)
  ClientProof := fun _ _ _ _ _ => [0x4d]

/-- The handler of user "test" with password "enter" before any packet. -/
def refHandler : ClientHandler :=
  { Username := [116, 101, 115, 116], Password := [101, 110, 116, 101, 114],
    peerID := 0, SRPPubA := [], SRPPrivA := [] }

/-- The calls of the SRP library in a trace, in order. -/
def srpCalls (tr : List Effect) : List Effect :=
  tr.filter fun e =>
    match e with
    | Effect.Send _ => false
    | Effect.GoDeferredInit => false
    | _ => true

/-! ## client.go -/

/-- A listener channel `chan interface{}` seen as a bounded FIFO queue: its
capacity and the events waiting in it, oldest first. -/
structure Listener where
  cap : Nat
  buf : List Command
  deriving DecidableEq, Repr

/-- The non-blocking send `select { case ch <- cmd: default: }` on a channel
nobody is receiving from: the event is queued when a slot is free and dropped
otherwise. -/
def Listener.offer (l : Listener) (cmd : Command) : Listener :=
  if l.buf.length < l.cap then { l with buf := l.buf ++ [cmd] } else l

/-- The struct `Client`: the fields the embedded methods read or write.
`writes` are the datagrams handed to `conn.Write`, `splits` the arguments
`sph.AddPacket` has been called with, `seqNr` the package-level sequence
counter that `packet.ResetSeqNr` sets and `packet.NextSequenceNr` advances,
`netrxClosed` and `connClosed` tell whether the channel `netrx` and the
connection `conn` have been closed; `emitted` and `sends` are ghost logs of
the arguments of `emitCommand` and of `Send`. -/
structure Client where
  PeerID : Nat
  listeners : List Listener
  writes : List (List Nat)
  splits : List (Option SplitPayload)
  seqNr : Nat
  emitted : List Command
  netrxClosed : Bool
  connClosed : Bool
  sends : List Packet
  deriving DecidableEq, Repr

/-- The collaborators of `Client` that are outside the embedded files: the
result of `conn.Write`, the function `packet.CreateControlAck`, the decoders
`UnmarshalPacket` of the command types listed in `handleCommandPayload`
(`none` for an identifier that is not a case of its switch),
`sph.AddPacket`, as a function of the fragments added before, the result of
`conn.Close`, and the declarations of package `packet` in the form `client.go`
calls them: `CreateControl(peerId, controlType)`,
`CreateReliable(peerId, payload)`, `CreatePayload(cmd)`, the constant
`MaxPacketLength`, `sph.SplitPayload(payload)`, and `NextSequenceNr()` as a
function from the counter to the value returned and the counter afterwards. -/
structure ClientDeps where
  Write : List (List Nat) → List Nat → Option String
  CreateControlAck : Nat → Packet → Packet
  UnmarshalCommand : Nat → List Nat → Option (Except String Command)
  AddPacket : List (Option SplitPayload) → Option SplitPayload → Option (List Nat)
  Close : Option String
  CreateControl : Nat → Nat → Packet
  CreateReliable : Nat → List Nat → Packet
  CreatePayload : Command → Except String (List Nat)
  MaxPacketLength : Nat
  SplitPayload : List Nat → Except String (List Packet)
  NextSequenceNr : Nat → Nat × Nat

/-- How a method body has ended: by `return nil`, by `return err`, or by a
run-time panic. -/
inductive Status where
  | ok
  | err (msg : String)
  | panic
  deriving DecidableEq, Repr

/-- Sequencing of statements: after `return err` or a panic nothing runs. -/
def andThen (r : Client × Status) (k : Client → Client × Status) : Client × Status :=
  match r.2 with
  | Status.ok => k r.1
  | _ => r

/-- The method `(*Client).AddListener`. -/
def Client.AddListener (c : Client) (ch : Listener) : Client :=
  { c with listeners := c.listeners ++ [ch] }

/-- The method `(*Client).emitCommand`: a non-blocking send to every
listener, in registration order. -/
def Client.emitCommand (c : Client) (cmd : Command) : Client :=
  { c with listeners := c.listeners.map fun ch => ch.offer cmd,
           emitted := c.emitted ++ [cmd] }

/-- The method `(*Client).Send`. -/
def Client.Send (D : ClientDeps) (E : Env) (c : Client) (p : Packet) : Client × Status :=
  let c := { c with sends := c.sends ++ [p] }
  match p.MarshalPacket E with
  | none => (c, Status.panic)
  | some (Except.error e) => (c, Status.err e)
  | some (Except.ok data) =>
    match D.Write c.writes data with
    | some e => ({ c with writes := c.writes ++ [data] }, Status.err e)
    | none => ({ c with writes := c.writes ++ [data] }, Status.ok)

/-- The method `(*Client).handleCommandPayload`. -/
def Client.handleCommandPayload (D : ClientDeps) (E : Env) (c : Client) (payload : List Nat) :
    Client × Status :=
  match Uint16 payload with
  | none => (c, Status.panic)
  | some commandId =>
    match sliceFrom payload 2 with
    | none => (c, Status.panic)
    | some commandPayload =>
      match D.UnmarshalCommand commandId commandPayload with
      | none => (c, Status.ok)
      | some (Except.error e) => (c, Status.err e)
      | some (Except.ok cmd) =>
        if commandId = E.ServerCommandHello then
          (({ c with seqNr := 65500 } : Client).emitCommand cmd, Status.ok)
        else (c.emitCommand cmd, Status.ok)

/-- The first block of `onReceive`: the SetPeerID indication. -/
def Client.onReceiveSetPeerID (E : Env) (c : Client) (p : Packet) : Client :=
  if p.PacketType = E.Reliable ∨ p.PacketType = E.Original then
    if p.ControlType = E.SetPeerID then
      ({ c with PeerID := p.PeerID } : Client).emitCommand (Command.ServerSetPeer p.PeerID)
    else c
  else c

/-- The block `// send ack` of `onReceive`. -/
def Client.onReceiveAck (D : ClientDeps) (E : Env) (c : Client) (p : Packet) :
    Client × Status :=
  if p.PacketType = E.Reliable then
    let ack := D.CreateControlAck c.PeerID p
    let ack := { ack with Channel := p.Channel }
    c.Send D E ack
  else (c, Status.ok)

/-- The block of `onReceive` that handles an unsplit command payload. -/
def Client.onReceivePayload (D : ClientDeps) (E : Env) (c : Client) (p : Packet) :
    Client × Status :=
  if p.SubType = E.Reliable ∨ p.SubType = E.Original then
    c.handleCommandPayload D E (p.Payload.getD [])
  else (c, Status.ok)

/-- The block of `onReceive` that handles a Split fragment. -/
def Client.onReceiveSplit (D : ClientDeps) (E : Env) (c : Client) (p : Packet) :
    Client × Status :=
  if p.SubType = E.Split then
    let data := D.AddPacket c.splits p.SplitPayload
    let c := { c with splits := c.splits ++ [p.SplitPayload] }
    match data with
    | some data => c.handleCommandPayload D E data
    | none => (c, Status.ok)
  else (c, Status.ok)

/-- The method `(*Client).onReceive`: the client after the call and how the
call ended. -/
def Client.onReceive (D : ClientDeps) (E : Env) (c : Client) (p : Packet) : Client × Status :=
  let c := c.onReceiveSetPeerID E p
  andThen (c.onReceiveAck D E p) fun c =>
    andThen (c.onReceivePayload D E p) fun c =>
      c.onReceiveSplit D E p

/-- The method `(*Client).Stop`. Closing the channel `netrx` panics when it
is closed already. -/
def Client.Stop (D : ClientDeps) (E : Env) (c : Client) : Client × Status :=
  andThen (c.Send D E (D.CreateControl c.PeerID E.Disco)) fun c =>
    if c.netrxClosed then (c, Status.panic)
    else
      let c := { c with netrxClosed := true }
      let c := { c with connClosed := true }
      match D.Close with
      | some e => (c, Status.err e)
      | none => (c, Status.ok)

/-- The loop `for _, pkg := range pkgs` of `SendCommand`. -/
def Client.sendFragments (D : ClientDeps) (E : Env) : List Packet → Client → Client × Status
  | [], c => (c, Status.ok)
  | pkg :: rest, c =>
    let pkg := { pkg with PeerID := c.PeerID }
    let pkg := { pkg with Channel := 1 }
    let next := D.NextSequenceNr c.seqNr
    let pkg := { pkg with SeqNr := next.1 }
    let c := { c with seqNr := next.2 }
    andThen (c.Send D E pkg) fun c => Client.sendFragments D E rest c

/-- One pass through the body of the loop `for _, pkg := range pkgs` of
`SendCommand`: the fragment gets the peer id, channel 1 and the next sequence
number and is handed to `Send`. -/
def Client.sendFragment (D : ClientDeps) (E : Env) (c : Client) (pkg : Packet) :
    Client × Status :=
  let pkg := { pkg with PeerID := c.PeerID }
  let pkg := { pkg with Channel := 1 }
  let next := D.NextSequenceNr c.seqNr
  let pkg := { pkg with SeqNr := next.1 }
  let c := { c with seqNr := next.2 }
  c.Send D E pkg

/-- The client in front of pass `i` of the loop over the fragments `pkgs`,
started on `c`, when the passes before it have been made: the states that
`sendFragment` leaves, threaded through the first `i` fragments. -/
def Client.beforeFragment (D : ClientDeps) (E : Env) : List Packet → Nat → Client → Client
  | _, 0, c => c
  | [], _ + 1, c => c
  | pkg :: rest, i + 1, c => Client.beforeFragment D E rest i (c.sendFragment D E pkg).1

/-- The method `(*Client).SendCommand`. -/
def Client.SendCommand (D : ClientDeps) (E : Env) (c : Client) (cmd : Command) :
    Client × Status :=
  match D.CreatePayload cmd with
  | Except.error e => (c, Status.err e)
  | Except.ok payload =>
    if payload.length < D.MaxPacketLength then
      c.Send D E (D.CreateReliable c.PeerID payload)
    else
      match D.SplitPayload payload with
      | Except.error e => (c, Status.err e)
      | Except.ok pkgs => Client.sendFragments D E pkgs c

/-- How `parseLoop` has ended: the channel `netrx` was closed and drained, or
the loop panicked, leaving the datagrams behind the current one unread. -/
inductive LoopExit where
  | drained
  | panicked (unread : List (List Nat))
  deriving DecidableEq, Repr

/-- The method `(*Client).parseLoop`, run on the datagrams that `rxLoop` has
queued in `netrx` before the channel is closed. -/
def Client.parseLoop (D : ClientDeps) (E : Env) : List (List Nat) → Client → Client × LoopExit
  | [], c => (c, LoopExit.drained)
  | buf :: rest, c =>
    match Parse E buf with
    | none => (c, LoopExit.panicked rest)
    | some (_, some _) => (c, LoopExit.panicked rest)
    | some (p, none) =>
      match c.onReceive D E p with
      | (c, Status.ok) => Client.parseLoop D E rest c
      | (c, _) => (c, LoopExit.panicked rest)

/-- Handling a sequence of inbound packets with `onReceive`, one call after
the other, whatever each call returns. -/
def Client.receiveAll (D : ClientDeps) (E : Env) (c : Client) (ps : List Packet) : Client :=
  ps.foldl (fun c p => (c.onReceive D E p).1) c

/-- The peer id the last SetPeerID packet of a sequence assigns: a packet
counts when its packet type is Reliable or Original and its control type is
SetPeerID; `init` when no packet counts. -/
def lastAssigned (E : Env) (init : Nat) (ps : List Packet) : Nat :=
  ps.foldl (fun id p =>
    if (p.PacketType = E.Reliable ∨ p.PacketType = E.Original) ∧ p.ControlType = E.SetPeerID
    then p.PeerID else id) init

/-- The sequence numbers, peer id and channel that `SendCommand` gives to the
fragments of a split payload: the fragments in order, each with the peer id
`peer`, channel 1 and the next value of the sequencer started at `counter`. -/
def stamped (D : ClientDeps) (peer : Nat) : Nat → List Packet → List Packet
  | _, [] => []
  | counter, pkg :: rest =>
    { pkg with PeerID := peer, Channel := 1, SeqNr := (D.NextSequenceNr counter).1 } ::
      stamped D peer (D.NextSequenceNr counter).2 rest

/-- The Go zero value `ClientInit{}`. -/
def ClientInit.zero : ClientInit :=
  { ClientMax := 0, SupportedCompressionModes := 0, MinNetProtoVersion := 0,
    MaxNetProtoVersion := 0, PlayerName := [] }

/-- Calling `emitCommand` once for each event of a list, in order. -/
def Client.emitAll (c : Client) (cmds : List Command) : Client :=
  cmds.foldl Client.emitCommand c

/-- Collaborators for evaluating `Client` on concrete inputs: every write
succeeds, the Ack is the Control/Ack packet with the sequence number of the
inbound packet, no command identifier is known, no fragment completes,
closing succeeds, only `Other` commands have an encoder, the maximum packet
length is 495, an oversized payload becomes one fragment, and the sequencer
counts modulo 65536. -/
def refDeps : ClientDeps where
  Write := fun _ _ => none
  CreateControlAck := fun peerId p =>
    { Packet.zero with
      PacketType := refEnv.Control, ControlType := refEnv.Ack, PeerID := peerId,
      SeqNr := p.SeqNr }
  UnmarshalCommand := fun _ _ => none
  AddPacket := fun _ _ => none
  Close := none
  CreateControl := fun peerId controlType =>
    { Packet.zero with
      PacketType := refEnv.Control, ControlType := controlType, PeerID := peerId }
  CreateReliable := fun peerId payload =>
    { Packet.zero with
      PacketType := refEnv.Reliable, SubType := refEnv.Original, PeerID := peerId,
      Channel := 1, Payload := some payload,
      Command := some (Command.Other (Uint16 payload |>.getD 0) (payload.drop 2)) }
  CreatePayload := fun cmd =>
    match cmd with
    | Command.Other tag body => Except.ok ([tag / 256 % 256, tag % 256] ++ body)
    | _ => Except.error "no encoder"
  MaxPacketLength := 495
  SplitPayload := fun payload =>
    Except.ok [{ Packet.zero with
      PacketType := refEnv.Reliable, SubType := refEnv.Split,
      Command := some (Command.Other 0 payload) }]
  NextSequenceNr := fun n => (n, (n + 1) % 65536)

/-- A client before any packet, with one empty listener of capacity 8. -/
def refClient : Client :=
  { PeerID := 0, listeners := [{ cap := 8, buf := [] }], writes := [], splits := [],
    seqNr := 0, emitted := [], netrxClosed := false, connClosed := false, sends := [] }

/-- Collaborators like `refDeps`, over a transport that rejects every write. -/
def failDeps : ClientDeps :=
  { refDeps with Write := fun _ _ => some "write: connection refused" }

/-- The handler of `refHandler` in the middle of an SRP handshake, holding
the ephemeral pair that `InitiateHandshake` of `refWorld` returned. -/
def srpHandler : ClientHandler :=
  { refHandler with peerID := 257, SRPPubA := [0xa1, 0xa2], SRPPrivA := [0x51, 0x52] }

/-- A client with a listener of capacity 2 and a listener of capacity 5 that
already holds one event. -/
def fanOutClient : Client :=
  { refClient with
    listeners := [{ cap := 2, buf := [] }, { cap := 5, buf := [Command.ServerAuthAccept] }] }

/-! # Theorems -/

theorem refEnv_wf : refEnv.WF :=
  ⟨rfl, by decide, by decide, by decide, by decide, by decide, by decide⟩


/-! ## The marker loop -/

theorem checkProtocolID_eq (sigs data : List Nat) (i : Nat)
    (h : i + sigs.length ≤ data.length) :
    checkProtocolID sigs data i =
      some (if (data.drop i).take sigs.length = sigs then none
            else some "invalid protocol_id") := by
  induction sigs generalizing i with
  | nil => simp [checkProtocolID]
  | cons sig rest ih =>
    have hi : i < data.length := by simp at h; omega
    have hd : data.drop i = data[i] :: data.drop (i + 1) := List.drop_eq_getElem_cons hi
    have hr : i + 1 + rest.length ≤ data.length := by simp at h; omega
    simp only [checkProtocolID, index, List.getElem?_eq_getElem hi, hd, List.length_cons,
      List.take_succ_cons, List.cons.injEq, ih (i + 1) hr]
    by_cases hs : data[i] = sig
    · simp [hs]
    · simp [hs]

/-- C1 (marker rejection). When the first four bytes of the input are not the
protocol marker (inputs shorter than four bytes included), `UnmarshalPacket`
returns an error and leaves its receiver untouched, so the packet `Parse`
returns with the error is the zero value `Packet{}`: no field is populated. -/
theorem marker_rejection (E : Env) (hE : E.ProtocolID.length = 4) (data : List Nat)
    (h : data.take 4 ≠ E.ProtocolID) :
    (∀ p : Packet, ∃ msg, p.UnmarshalPacket E data = some (p, some msg)) ∧
    ∃ msg, Parse E data = some (Packet.zero, some msg) := by
  have key : ∀ p : Packet, ∃ msg, p.UnmarshalPacket E data = some (p, some msg) := by
    intro p
    by_cases hlen : data.length < 5
    · exact ⟨"invalid packet length", by simp [Packet.UnmarshalPacket, hlen]⟩
    · have hc := checkProtocolID_eq E.ProtocolID data 0 (by omega)
      rw [hE] at hc
      simp only [List.drop_zero, h, if_false] at hc
      exact ⟨"invalid protocol_id", by simp [Packet.UnmarshalPacket, hlen, hc]⟩
  exact ⟨key, key Packet.zero⟩

/-- Witness of C1 on the reference constants: a datagram whose fourth byte is
wrong. -/
theorem marker_rejection_witness :
    ([0x4f, 0x45, 0x74, 0x04, 0, 1, 0, 3] : List Nat).take 4 ≠ refEnv.ProtocolID ∧
    ∃ msg, Parse refEnv [0x4f, 0x45, 0x74, 0x04, 0, 1, 0, 3] = some (Packet.zero, some msg) :=
  ⟨by decide, (marker_rejection refEnv rfl _ (by decide)).2⟩


theorem list_length_four {l : List Nat} (h : l.length = 4) :
    ∃ a b c d, l = [a, b, c, d] := by
  match l, h with
  | [a, b, c, d], _ => exact ⟨a, b, c, d, rfl⟩

theorem marshal_control (E : Env) (hE : E.WF) (p : Packet)
    (hT : p.PacketType = E.Control) (hP : p.PeerID < 65536) (hS : p.SeqNr < 65536)
    (hC : p.ControlType < 256) :
    p.MarshalPacket E =
      some (Except.ok (header E p ++ [p.ControlType, p.SeqNr / 256, p.SeqNr % 256])) := by
  obtain ⟨a, b, c, d, hm⟩ := list_length_four hE.marker_len
  have hd := hE.types_distinct
  have hb := hE.types_bytes
  simp at hd hb
  have h1 : E.Control ≠ E.Reliable := by omega
  have hp1 : p.PeerID / 256 % 256 = p.PeerID / 256 := by omega
  have hs1 : p.SeqNr / 256 % 256 = p.SeqNr / 256 := by omega
  have hc1 : p.ControlType % 256 = p.ControlType := by omega
  have ht1 : E.Control % 256 = E.Control := by omega
  simp [Packet.MarshalPacket, header, hm, hT, h1, make, copy, PutUint16, setIndex, byte,
    List.replicate, hp1, hs1, hc1, ht1]


theorem marshal_reliable (E : Env) (hE : E.WF) (p : Packet) (cmd : Command)
    (payload : List Nat)
    (hT : p.PacketType = E.Reliable) (hP : p.PeerID < 65536) (hS : p.SeqNr < 65536)
    (hU : p.SubType < 256) (hc : p.Command = some cmd)
    (hI : cmd.GetCommandId E < 65536)
    (hm : cmd.MarshalPacket E = some (Except.ok payload)) :
    p.MarshalPacket E =
      some (Except.ok (header E p ++
        [p.SeqNr / 256, p.SeqNr % 256, p.SubType,
         cmd.GetCommandId E / 256, cmd.GetCommandId E % 256] ++ payload)) := by
  obtain ⟨a, b, c, d, hm4⟩ := list_length_four hE.marker_len
  have hb := hE.types_bytes
  simp at hb
  have hp1 : p.PeerID / 256 % 256 = p.PeerID / 256 := by omega
  have hs1 : p.SeqNr / 256 % 256 = p.SeqNr / 256 := by omega
  have hi1 : cmd.GetCommandId E / 256 % 256 = cmd.GetCommandId E / 256 := by omega
  have hu1 : p.SubType % 256 = p.SubType := by omega
  have ht1 : E.Reliable % 256 = E.Reliable := by omega
  simp [Packet.MarshalPacket, header, hm4, hT, hc, hm, make, copy, PutUint16, setIndex,
    byte, List.replicate, hp1, hs1, hi1, hu1, ht1]

theorem marshal_original (E : Env) (hE : E.WF) (p : Packet) (cmd : Command)
    (payload : List Nat)
    (hT : p.PacketType = E.Original) (hP : p.PeerID < 65536)
    (hc : p.Command = some cmd) (hI : cmd.GetCommandId E < 65536)
    (hm : cmd.MarshalPacket E = some (Except.ok payload)) :
    p.MarshalPacket E =
      some (Except.ok (header E p ++
        [cmd.GetCommandId E / 256, cmd.GetCommandId E % 256] ++ payload)) := by
  obtain ⟨a, b, c, d, hm4⟩ := list_length_four hE.marker_len
  have hd := hE.types_distinct
  have hb := hE.types_bytes
  simp at hd hb
  have h1 : E.Original ≠ E.Reliable := by omega
  have h2 : E.Original ≠ E.Control := by omega
  have hp1 : p.PeerID / 256 % 256 = p.PeerID / 256 := by omega
  have hi1 : cmd.GetCommandId E / 256 % 256 = cmd.GetCommandId E / 256 := by omega
  have ht1 : E.Original % 256 = E.Original := by omega
  simp [Packet.MarshalPacket, header, hm4, hT, hc, hm, h1, h2, make, copy, PutUint16,
    setIndex, byte, List.replicate, hp1, hi1, ht1]


theorem unmarshal_envelope (E : Env) (hE : E.ProtocolID.length = 4) (p : Packet)
    (ph pl ch ty : Nat) (rest : List Nat) :
    p.UnmarshalPacket E (E.ProtocolID ++ ph :: pl :: ch :: ty :: rest) =
      if ty = E.Reliable then
        unmarshalReliable E { p with PeerID := pl + ph * 256, Channel := ch, PacketType := ty }
          (E.ProtocolID ++ ph :: pl :: ch :: ty :: rest)
      else some ({ p with PeerID := pl + ph * 256, Channel := ch, PacketType := ty }, none) := by
  obtain ⟨a, b, c, d, hm⟩ := list_length_four hE
  simp [Packet.UnmarshalPacket, hm, checkProtocolID, index, sliceFrom, Uint16]

theorem unmarshal_reliable_default (E : Env) (hE : E.ProtocolID.length = 4) (p : Packet)
    (ph pl ch sh sl st ih il : Nat) (payload : List Nat)
    (h1 : st ≠ E.Control) (h2 : st ≠ E.Split) :
    p.UnmarshalPacket E
        (E.ProtocolID ++ ph :: pl :: ch :: E.Reliable :: sh :: sl :: st :: ih :: il :: payload) =
      some ({ p with
          PeerID := pl + ph * 256, Channel := ch, PacketType := E.Reliable,
          SeqNr := sl + sh * 256, SubType := st, CommandID := il + ih * 256,
          Payload := some payload,
          Command := (E.CreateCommand (il + ih * 256) payload).1 },
        (E.CreateCommand (il + ih * 256) payload).2) := by
  rw [unmarshal_envelope E hE]
  obtain ⟨a, b, c, d, hm⟩ := list_length_four hE
  simp [unmarshalReliable, unmarshalDefault, hm, index, sliceFrom, Uint16, h1, h2]

theorem unmarshal_reliable_control (E : Env) (hE : E.ProtocolID.length = 4) (p : Packet)
    (ph pl ch sh sl ct : Nat) (rest : List Nat) :
    p.UnmarshalPacket E
        (E.ProtocolID ++ ph :: pl :: ch :: E.Reliable :: sh :: sl :: E.Control :: ct :: rest) =
      if ct = E.SetPeerID then
        match rest with
        | nh :: nl :: _ =>
          some ({ p with
            PeerID := nl + nh * 256, Channel := ch, PacketType := E.Reliable,
            SeqNr := sl + sh * 256, SubType := E.Control, ControlType := ct }, none)
        | _ => none
      else
        some ({ p with
          PeerID := pl + ph * 256, Channel := ch, PacketType := E.Reliable,
          SeqNr := sl + sh * 256, SubType := E.Control, ControlType := ct }, none) := by
  rw [unmarshal_envelope E hE]
  obtain ⟨a, b, c, d, hm⟩ := list_length_four hE
  by_cases hct : ct = E.SetPeerID
  · match rest with
    | [] => simp [unmarshalReliable, unmarshalControl, hm, index, sliceFrom, Uint16, hct]
    | [x] => simp [unmarshalReliable, unmarshalControl, hm, index, sliceFrom, Uint16, hct]
    | nh :: nl :: r =>
      simp [unmarshalReliable, unmarshalControl, hm, index, sliceFrom, Uint16, hct]
  · simp [unmarshalReliable, unmarshalControl, hm, index, sliceFrom, Uint16, hct]


/-- C2 (decoder on short input). On the reference constants `UnmarshalPacket`
panics, instead of returning an error, on a five-byte and a seven-byte
datagram with a valid marker (the reads of `data[4:]`, `data[7]`), and on
Reliable datagrams cut inside their body: eight bytes (`data[8:]`), a Control
body whose new peer id is missing (`data[12:]`), a twelve-byte Original body
(`data[11:]` has one byte) and a sixteen-byte Split body (`data[15:]` has one
byte). The length check of the code only rejects inputs shorter than five
bytes. -/
theorem unmarshal_short_input_panics :
    Parse refEnv [0x4f, 0x45, 0x74, 0x03, 0] = none ∧
    Parse refEnv [0x4f, 0x45, 0x74, 0x03, 0, 1, 0] = none ∧
    Parse refEnv [0x4f, 0x45, 0x74, 0x03, 0, 1, 0, 3] = none ∧
    Parse refEnv [0x4f, 0x45, 0x74, 0x03, 0, 1, 0, 3, 0, 5, 0, 1] = none ∧
    Parse refEnv [0x4f, 0x45, 0x74, 0x03, 0, 1, 0, 3, 0, 5, 1, 0] = none ∧
    Parse refEnv [0x4f, 0x45, 0x74, 0x03, 0, 1, 0, 3, 0, 5, 2, 0, 9, 0, 2, 0] = none := by
  refine ⟨?_, ?_, ?_, ?_, ?_, ?_⟩ <;> decide

/-- C3, counterexample. A Control packet with control type Ping and sequence
number 5 encodes to eleven bytes, and decoding these bytes succeeds with
control type 0 and sequence number 0: neither field is reproduced. -/
theorem roundtrip_control_not_reproduced :
    (CreateControl refEnv 7 5 refEnv.Ping).MarshalPacket refEnv =
      some (Except.ok [0x4f, 0x45, 0x74, 0x03, 0, 7, 0, 0, 2, 0, 5]) ∧
    Parse refEnv [0x4f, 0x45, 0x74, 0x03, 0, 7, 0, 0, 2, 0, 5] =
      some ({ Packet.zero with PeerID := 7 }, none) ∧
    (CreateControl refEnv 7 5 refEnv.Ping).ControlType = 2 ∧
    (CreateControl refEnv 7 5 refEnv.Ping).SeqNr = 5 ∧
    ({ Packet.zero with PeerID := 7 } : Packet).ControlType = 0 ∧
    ({ Packet.zero with PeerID := 7 } : Packet).SeqNr = 0 := by
  refine ⟨?_, ?_, ?_, ?_, ?_, ?_⟩ <;> rfl

/-- C3, amended. For a packet `p` whose fields are in the range of their Go
types: if `p` is Reliable with sub-type Original and its command encodes
without error, decoding the encoding of `p` returns a packet with the packet
type, sub-type, peer id, channel and sequence number of `p`, the identifier of
the command of `p` and its encoded payload, together with the command and the
error the registry function `CreateCommand` gives for that identifier and
payload (so decoding succeeds exactly when the registry accepts them); if `p`
has packet type Control, or Original with a command that encodes without
error, decoding the encoding succeeds and reproduces the peer id, channel and
packet type only, every other field of the result being the zero value. -/
theorem roundtrip_envelope (E : Env) (hE : E.WF) (p : Packet)
    (hP : p.PeerID < 65536) (hS : p.SeqNr < 65536) (hC : p.ControlType < 256) :
    (∀ cmd payload, p.Command = some cmd → cmd.GetCommandId E < 65536 →
      cmd.MarshalPacket E = some (Except.ok payload) →
      (p.PacketType = E.Reliable → p.SubType = E.Original →
        ∃ bytes, p.MarshalPacket E = some (Except.ok bytes) ∧
          Parse E bytes =
            some ({ Packet.zero with
                PacketType := p.PacketType, SubType := p.SubType, PeerID := p.PeerID,
                Channel := p.Channel, SeqNr := p.SeqNr,
                CommandID := cmd.GetCommandId E, Payload := some payload,
                Command := (E.CreateCommand (cmd.GetCommandId E) payload).1 },
              (E.CreateCommand (cmd.GetCommandId E) payload).2)) ∧
      (p.PacketType = E.Original →
        ∃ bytes, p.MarshalPacket E = some (Except.ok bytes) ∧
          Parse E bytes =
            some ({ Packet.zero with
                PacketType := p.PacketType, PeerID := p.PeerID, Channel := p.Channel },
              none))) ∧
    (p.PacketType = E.Control →
      ∃ bytes, p.MarshalPacket E = some (Except.ok bytes) ∧
        Parse E bytes =
          some ({ Packet.zero with
              PacketType := p.PacketType, PeerID := p.PeerID, Channel := p.Channel },
            none)) := by
  have hd := hE.types_distinct
  have hb := hE.types_bytes
  simp at hd hb
  have hpe : p.PeerID % 256 + p.PeerID / 256 * 256 = p.PeerID := by omega
  have hse : p.SeqNr % 256 + p.SeqNr / 256 * 256 = p.SeqNr := by omega
  refine ⟨fun cmd payload hc hI hm => ⟨fun hT hU => ?_, fun hT => ?_⟩, fun hT => ?_⟩
  · have hie : cmd.GetCommandId E % 256 + cmd.GetCommandId E / 256 * 256 =
        cmd.GetCommandId E := by omega
    refine ⟨_, marshal_reliable E hE p cmd payload hT hP hS (by omega) hc hI hm, ?_⟩
    have h1 : E.Original ≠ E.Control := by omega
    have h2 : E.Original ≠ E.Split := by omega
    simp only [header, hT, hU, List.append_assoc, List.cons_append, List.nil_append, Parse]
    rw [unmarshal_reliable_default E hE.marker_len _ _ _ _ _ _ _ _ _ _ h1 h2]
    simp [hpe, hse, hie, Packet.zero]
  · refine ⟨_, marshal_original E hE p cmd payload hT hP hc hI hm, ?_⟩
    have h1 : E.Original ≠ E.Reliable := by omega
    simp only [header, hT, List.append_assoc, List.cons_append, List.nil_append, Parse]
    rw [unmarshal_envelope E hE.marker_len]
    simp [hpe, h1, Packet.zero]
  · refine ⟨_, marshal_control E hE p hT hP hS hC, ?_⟩
    have h1 : E.Control ≠ E.Reliable := by omega
    simp only [header, hT, List.append_assoc, List.cons_append, List.nil_append, Parse]
    rw [unmarshal_envelope E hE.marker_len]
    simp [hpe, h1, Packet.zero]


/-- Witness of C3 (amended) on the reference constants: a Reliable greeting
with peer id 7 and sequence number 5. -/
theorem roundtrip_envelope_witness :
    refEnv.WF ∧
    ∃ bytes,
      (CreateReliable refEnv 7 5 (Command.ServerHello true false)).MarshalPacket refEnv =
        some (Except.ok bytes) ∧
      Parse refEnv bytes =
        some ({ Packet.zero with
            PacketType := 3, SubType := 1, PeerID := 7, Channel := 1, SeqNr := 5,
            CommandID := 2, Payload := some [1, 0],
            Command := some (Command.ServerHello true false) }, none) :=
  ⟨refEnv_wf,
   ((roundtrip_envelope refEnv refEnv_wf
      (CreateReliable refEnv 7 5 (Command.ServerHello true false))
      (by decide) (by decide) (by decide)).1
      (Command.ServerHello true false) [1, 0] rfl (by decide) rfl).1 rfl rfl⟩

/-- C4 (envelope layout). For a packet whose fields are in the range of their
Go types, `MarshalPacket` returns exactly: the four marker bytes, the peer id
as two bytes big-endian, the channel byte and the packet type byte, followed
for Control by the control type byte and the sequence number as two bytes
big-endian (eleven bytes in all); for Original, with a command that encodes
without error, by the command id as two bytes big-endian and the encoded
payload; for Reliable with sub-type Original, with such a command, by the
sequence number as two bytes big-endian, the sub-type byte, the command id as
two bytes big-endian and the encoded payload. -/
theorem marshal_layout (E : Env) (hE : E.WF) (p : Packet)
    (hP : p.PeerID < 65536) (hS : p.SeqNr < 65536) (hC : p.ControlType < 256) :
    (p.PacketType = E.Control →
      p.MarshalPacket E =
        some (Except.ok (E.ProtocolID ++
          [p.PeerID / 256, p.PeerID % 256, p.Channel, E.Control,
           p.ControlType, p.SeqNr / 256, p.SeqNr % 256])) ∧
      (E.ProtocolID ++
          [p.PeerID / 256, p.PeerID % 256, p.Channel, E.Control,
           p.ControlType, p.SeqNr / 256, p.SeqNr % 256]).length = 11) ∧
    (∀ cmd payload, p.Command = some cmd → cmd.GetCommandId E < 65536 →
      cmd.MarshalPacket E = some (Except.ok payload) →
      (p.PacketType = E.Original →
        p.MarshalPacket E =
          some (Except.ok (E.ProtocolID ++
            [p.PeerID / 256, p.PeerID % 256, p.Channel, E.Original,
             cmd.GetCommandId E / 256, cmd.GetCommandId E % 256] ++ payload))) ∧
      (p.PacketType = E.Reliable → p.SubType = E.Original →
        p.MarshalPacket E =
          some (Except.ok (E.ProtocolID ++
            [p.PeerID / 256, p.PeerID % 256, p.Channel, E.Reliable,
             p.SeqNr / 256, p.SeqNr % 256, E.Original,
             cmd.GetCommandId E / 256, cmd.GetCommandId E % 256] ++ payload)))) := by
  have hb := hE.types_bytes
  simp at hb
  refine ⟨fun hT => ⟨?_, ?_⟩, fun cmd payload hc hI hm => ⟨fun hT => ?_, fun hT hU => ?_⟩⟩
  · rw [marshal_control E hE p hT hP hS hC]
    simp [header, hT]
  · simp [hE.marker_len]
  · rw [marshal_original E hE p cmd payload hT hP hc hI hm]
    simp [header, hT]
  · rw [marshal_reliable E hE p cmd payload hT hP hS (by omega) hc hI hm]
    simp [header, hT, hU]

/-- Witness of C4 on the reference constants: the Ack for sequence number
65500 sent by peer 257 is the eleven bytes `4f 45 74 03 01 01 00 00 00 ff dc`. -/
theorem marshal_layout_witness :
    refEnv.WF ∧
    (CreateControl refEnv 257 65500 refEnv.Ack).MarshalPacket refEnv =
      some (Except.ok [0x4f, 0x45, 0x74, 0x03, 1, 1, 0, 0, 0, 0xff, 0xdc]) :=
  ⟨refEnv_wf,
   ((marshal_layout refEnv refEnv_wf (CreateControl refEnv 257 65500 refEnv.Ack)
      (by decide) (by decide) (by decide)).1 rfl).1⟩

/-- C5, counterexample. A datagram of packet type Control with control type
SetPeerID, sequence number 5 and trailing new peer id 257, sent with envelope
peer id 1, decodes with peer id 1: the trailing id does not override the
envelope, and the control type is not decoded at all. -/
theorem control_setpeerid_not_decoded :
    Parse refEnv [0x4f, 0x45, 0x74, 0x03, 0, 1, 0, 0, 1, 0, 5, 1, 1] =
      some ({ Packet.zero with PeerID := 1, Channel := 0, PacketType := 0 }, none) ∧
    refEnv.Control = 0 ∧ refEnv.SetPeerID = 1 ∧
    Uint16 [1, 1] = some 257 := by
  refine ⟨?_, ?_, ?_, ?_⟩ <;> rfl

/-- C5, amended. For a Reliable datagram with sub-type Control, whose control
type is byte 11: when the control type is not SetPeerID the decoded peer id is
the envelope peer id (bytes 4-5); when it is SetPeerID the decoded peer id is
the two-byte big-endian value at bytes 12-13, directly behind the control type
byte (the sequence number is bytes 8-9, the sub-type byte 10), and the decoder
panics when these two bytes are missing. A datagram of packet type Control is
decoded up to the envelope only, so its peer id is the envelope peer id for
every control type. -/
theorem control_peer_id (E : Env) (hE : E.WF) (ph pl ch sh sl ct : Nat) (rest : List Nat) :
    (ct ≠ E.SetPeerID →
      Parse E (E.ProtocolID ++ ph :: pl :: ch :: E.Reliable :: sh :: sl :: E.Control :: ct :: rest) =
        some ({ Packet.zero with
          PeerID := pl + ph * 256, Channel := ch, PacketType := E.Reliable,
          SeqNr := sl + sh * 256, SubType := E.Control, ControlType := ct }, none)) ∧
    (∀ nh nl tail,
      Parse E (E.ProtocolID ++ ph :: pl :: ch :: E.Reliable :: sh :: sl :: E.Control ::
          E.SetPeerID :: nh :: nl :: tail) =
        some ({ Packet.zero with
          PeerID := nl + nh * 256, Channel := ch, PacketType := E.Reliable,
          SeqNr := sl + sh * 256, SubType := E.Control, ControlType := E.SetPeerID }, none)) ∧
    (rest.length < 2 →
      Parse E (E.ProtocolID ++ ph :: pl :: ch :: E.Reliable :: sh :: sl :: E.Control ::
          E.SetPeerID :: rest) = none) ∧
    Parse E (E.ProtocolID ++ ph :: pl :: ch :: E.Control :: rest) =
      some ({ Packet.zero with
        PeerID := pl + ph * 256, Channel := ch, PacketType := E.Control }, none) := by
  have hd := hE.types_distinct
  simp at hd
  have h1 : E.Control ≠ E.Reliable := by omega
  refine ⟨fun hct => ?_, fun nh nl tail => ?_, fun hr => ?_, ?_⟩
  · simp [Parse, unmarshal_reliable_control E hE.marker_len, hct]
  · simp [Parse, unmarshal_reliable_control E hE.marker_len]
  · rw [Parse, unmarshal_reliable_control E hE.marker_len]
    match rest, hr with
    | [], _ => simp
    | [x], _ => simp
  · simp [Parse, unmarshal_envelope E hE.marker_len, h1]

/-- Witness of C5 (amended) on the reference constants: the server's
Reliable/Control/SetPeerID datagram assigning peer id 257. -/
theorem control_peer_id_witness :
    refEnv.WF ∧
    Parse refEnv [0x4f, 0x45, 0x74, 0x03, 0, 1, 0, 3, 0xff, 0xdc, 0, 1, 1, 1] =
      some ({ Packet.zero with
        PeerID := 257, Channel := 0, PacketType := 3,
        SeqNr := 65500, SubType := 0, ControlType := 1 }, none) :=
  ⟨refEnv_wf, (control_peer_id refEnv refEnv_wf 0 1 0 0xff 0xdc 1 []).2.1 1 1 []⟩



/-- The run of the handler on a Reliable greeting when sends and the SRP
library, where called, succeed: the Ack, then the SRP block when its flag is set, then the
first-SRP block when its flag is set. -/
theorem onPacketReceive_hello (W : World) (E : Env) (hE : E.WF) (ch : ClientHandler)
    (p : Packet) (authSRP authFirstSRP : Bool)
    (hT : p.PacketType = E.Reliable) (hU : p.SubType ≠ E.Split)
    (hI : p.CommandID = E.ServerCommandHello)
    (hc : p.Command = some (Command.ServerHello authSRP authFirstSRP))
    (hsend : ∀ tr q, W.Send tr q = none)
    (hinit : authSRP = true → W.InitiateHandshake.2.2 = none)
    (hnew : authFirstSRP = true → (W.NewClient ch.Username ch.Password).2.2 = none) :
    (ch.OnPacketReceive W E p).panicked = none ∧
    sentPackets (ch.OnPacketReceive W E p).trace =
      [CreateControl E (if p.ControlType = E.SetPeerID then p.PeerID else ch.peerID)
          p.SeqNr E.Ack] ++
      (if authSRP then
        [CreateReliable E (if p.ControlType = E.SetPeerID then p.PeerID else ch.peerID) 0
          (Command.ClientSRPBytesA W.InitiateHandshake.1)] else []) ++
      (if authFirstSRP then
        [CreateReliable E (if p.ControlType = E.SetPeerID then p.PeerID else ch.peerID) 0
          (Command.ClientFirstSRP (W.NewClient ch.Username ch.Password).1
            (W.NewClient ch.Username ch.Password).2.1)] else []) ∧
    srpCalls (ch.OnPacketReceive W E p).trace =
      (if authSRP then [Effect.InitiateHandshake] else []) ++
      (if authFirstSRP then [Effect.NewClient ch.Username ch.Password] else []) := by
  have hd := hE.ids_distinct
  simp at hd
  have h1 : E.ServerCommandHello ≠ E.ServerCommandSRPBytesSB := by tauto
  have h2 : E.ServerCommandHello ≠ E.ServerCommandAuthAccept := by tauto
  by_cases hs : p.ControlType = E.SetPeerID <;>
  cases authSRP <;> cases authFirstSRP <;>
  simp [ClientHandler.OnPacketReceive, onSetPeerID, sendOrPanic, Run.andThen, onHello,
    onSRPBytesSB, onAuthAccept, helloSRP, helloFirstSRP, sentPackets, srpCalls,
    hT, hU, hI, hc, hsend, hinit, hnew, hs, h1, h2]


/-- The inbound packet used to evaluate the handler: what `Parse` returns
for the datagram of a Reliable greeting with sequence number 5 on channel 1
that sets neither mechanism flag. -/
theorem parse_greeting :
    Parse refEnv [0x4f, 0x45, 0x74, 0x03, 0, 1, 1, 3, 0, 5, 1, 0, 2, 0, 0] =
      some ({ Packet.zero with
        PacketType := 3, SubType := 1, PeerID := 1, SeqNr := 5, Channel := 1,
        CommandID := 2, Payload := some [0, 0],
        Command := some (Command.ServerHello false false) }, none) := by
  rfl

/-- C6 (Ack obligation), evaluated. The Reliable greeting of `parse_greeting`
arrives on channel 1 with sequence number 5; the handler sends exactly one
packet, the Control/Ack built by `CreateControl`, with sequence number 5 but
with channel 0, not the channel of the inbound packet: `CreateControl` leaves
the channel at its zero value and the handler does not set it. -/
theorem handler_ack_channel :
    (refHandler.OnPacketReceive refWorld refEnv
      { Packet.zero with
        PacketType := 3, SubType := 1, PeerID := 1, SeqNr := 5, Channel := 1,
        CommandID := 2, Payload := some [0, 0],
        Command := some (Command.ServerHello false false) }).trace =
      [Effect.Send { Packet.zero with
        PacketType := refEnv.Control, ControlType := refEnv.Ack, PeerID := 0,
        SeqNr := 5, Channel := 0 }] ∧
    ∀ (E : Env) (peerId seqNr : Nat), (CreateControl E peerId seqNr E.Ack).Channel = 0 := by
  exact ⟨by decide, fun _ _ _ => rfl⟩

/-- C9 (handshake branch selection). For a greeting in a Reliable packet that
is not a Split packet, when the sends and the SRP primitive that is called
succeed: with only the SRP flag set the handler calls `InitiateHandshake` once
and no other primitive, and sends the Ack followed by one `ClientSRPBytesA`
command; with only the first-time flag set it calls `NewClient` once, with the
user name and the password, and no other primitive, and sends the Ack followed
by one `ClientFirstSRP` command; with neither flag set it calls no primitive
and sends the Ack only. -/
theorem hello_branch_selection (W : World) (E : Env) (hE : E.WF) (ch : ClientHandler)
    (p : Packet) (authSRP authFirstSRP : Bool)
    (hT : p.PacketType = E.Reliable) (hU : p.SubType ≠ E.Split)
    (hI : p.CommandID = E.ServerCommandHello)
    (hc : p.Command = some (Command.ServerHello authSRP authFirstSRP))
    (hsend : ∀ tr q, W.Send tr q = none)
    (hinit : authSRP = true → W.InitiateHandshake.2.2 = none)
    (hnew : authFirstSRP = true → (W.NewClient ch.Username ch.Password).2.2 = none) :
    (authSRP = true → authFirstSRP = false →
      srpCalls (ch.OnPacketReceive W E p).trace = [Effect.InitiateHandshake] ∧
      sentPackets (ch.OnPacketReceive W E p).trace =
        [CreateControl E (if p.ControlType = E.SetPeerID then p.PeerID else ch.peerID)
            p.SeqNr E.Ack,
         CreateReliable E (if p.ControlType = E.SetPeerID then p.PeerID else ch.peerID) 0
            (Command.ClientSRPBytesA W.InitiateHandshake.1)]) ∧
    (authSRP = false → authFirstSRP = true →
      srpCalls (ch.OnPacketReceive W E p).trace =
        [Effect.NewClient ch.Username ch.Password] ∧
      sentPackets (ch.OnPacketReceive W E p).trace =
        [CreateControl E (if p.ControlType = E.SetPeerID then p.PeerID else ch.peerID)
            p.SeqNr E.Ack,
         CreateReliable E (if p.ControlType = E.SetPeerID then p.PeerID else ch.peerID) 0
            (Command.ClientFirstSRP (W.NewClient ch.Username ch.Password).1
              (W.NewClient ch.Username ch.Password).2.1)]) ∧
    (authSRP = false → authFirstSRP = false →
      srpCalls (ch.OnPacketReceive W E p).trace = [] ∧
      sentPackets (ch.OnPacketReceive W E p).trace =
        [CreateControl E (if p.ControlType = E.SetPeerID then p.PeerID else ch.peerID)
            p.SeqNr E.Ack]) := by
  have h := onPacketReceive_hello W E hE ch p authSRP authFirstSRP hT hU hI hc hsend hinit hnew
  refine ⟨fun ha hb => ?_, fun ha hb => ?_, fun ha hb => ?_⟩ <;>
    · subst ha hb
      simpa using And.intro h.2.2 h.2.1

/-- Witness of C9: the greeting with only the SRP flag, on the reference
constants and a world where every call succeeds. -/
theorem hello_branch_selection_witness :
    refEnv.WF ∧
    srpCalls (refHandler.OnPacketReceive refWorld refEnv
      { Packet.zero with
        PacketType := 3, SubType := 1, PeerID := 1, SeqNr := 5, Channel := 1,
        CommandID := 2, Payload := some [1, 0],
        Command := some (Command.ServerHello true false) }).trace =
      [Effect.InitiateHandshake] ∧
    sentPackets (refHandler.OnPacketReceive refWorld refEnv
      { Packet.zero with
        PacketType := 3, SubType := 1, PeerID := 1, SeqNr := 5, Channel := 1,
        CommandID := 2, Payload := some [1, 0],
        Command := some (Command.ServerHello true false) }).trace =
      [CreateControl refEnv 0 5 refEnv.Ack,
       CreateReliable refEnv 0 0 (Command.ClientSRPBytesA [0xa1, 0xa2])] :=
  ⟨refEnv_wf,
   (hello_branch_selection refWorld refEnv refEnv_wf refHandler
      { Packet.zero with
        PacketType := 3, SubType := 1, PeerID := 1, SeqNr := 5, Channel := 1,
        CommandID := 2, Payload := some [1, 0],
        Command := some (Command.ServerHello true false) }
      true false rfl (by decide) rfl rfl (fun _ _ => rfl) (fun _ => rfl) (fun _ => rfl)).1
      rfl rfl⟩

/-- C10, counterexample. On a greeting that sets both mechanism flags the
handler takes both paths: after the Ack it sends a `ClientSRPBytesA` command
and then a `ClientFirstSRP` command. -/
theorem hello_both_flags_sends_both :
    sentPackets (refHandler.OnPacketReceive refWorld refEnv
      { Packet.zero with
        PacketType := 3, SubType := 1, PeerID := 1, SeqNr := 5, Channel := 1,
        CommandID := 2, Payload := some [1, 1],
        Command := some (Command.ServerHello true true) }).trace =
      [CreateControl refEnv 0 5 refEnv.Ack,
       CreateReliable refEnv 0 0 (Command.ClientSRPBytesA [0xa1, 0xa2]),
       CreateReliable refEnv 0 0 (Command.ClientFirstSRP [0x5a] [0x7e])] := by
  decide

/-- C10, amended. For a greeting in a Reliable packet that is not a Split
packet, when the sends and the SRP primitives that are called succeed, the two
paths are selected independently: after the Ack the handler sends a
`ClientSRPBytesA` command exactly when the SRP flag is set and then a
`ClientFirstSRP` command exactly when the first-time flag is set. So it does
not send both when at most one flag is set. -/
theorem hello_paths_follow_flags (W : World) (E : Env) (hE : E.WF) (ch : ClientHandler)
    (p : Packet) (authSRP authFirstSRP : Bool)
    (hT : p.PacketType = E.Reliable) (hU : p.SubType ≠ E.Split)
    (hI : p.CommandID = E.ServerCommandHello)
    (hc : p.Command = some (Command.ServerHello authSRP authFirstSRP))
    (hsend : ∀ tr q, W.Send tr q = none)
    (hinit : authSRP = true → W.InitiateHandshake.2.2 = none)
    (hnew : authFirstSRP = true → (W.NewClient ch.Username ch.Password).2.2 = none) :
    ((∃ q ∈ sentPackets (ch.OnPacketReceive W E p).trace,
        ∃ a, q.Command = some (Command.ClientSRPBytesA a)) ↔ authSRP = true) ∧
    ((∃ q ∈ sentPackets (ch.OnPacketReceive W E p).trace,
        ∃ s v, q.Command = some (Command.ClientFirstSRP s v)) ↔ authFirstSRP = true) ∧
    ((authSRP = false ∨ authFirstSRP = false) →
      ¬ ((∃ q ∈ sentPackets (ch.OnPacketReceive W E p).trace,
            ∃ a, q.Command = some (Command.ClientSRPBytesA a)) ∧
         (∃ q ∈ sentPackets (ch.OnPacketReceive W E p).trace,
            ∃ s v, q.Command = some (Command.ClientFirstSRP s v)))) := by
  have h := (onPacketReceive_hello W E hE ch p authSRP authFirstSRP hT hU hI hc hsend
    hinit hnew).2.1
  cases authSRP <;> cases authFirstSRP <;>
    simp [h, CreateControl, CreateReliable, Packet.zero]

/-- Witness of C10 (amended): the greeting with only the first-time flag. -/
theorem hello_paths_follow_flags_witness :
    refEnv.WF ∧
    ¬ ((∃ q ∈ sentPackets (refHandler.OnPacketReceive refWorld refEnv
          { Packet.zero with
            PacketType := 3, SubType := 1, PeerID := 1, SeqNr := 5, Channel := 1,
            CommandID := 2, Payload := some [0, 1],
            Command := some (Command.ServerHello false true) }).trace,
          ∃ a, q.Command = some (Command.ClientSRPBytesA a)) ∧
       (∃ q ∈ sentPackets (refHandler.OnPacketReceive refWorld refEnv
          { Packet.zero with
            PacketType := 3, SubType := 1, PeerID := 1, SeqNr := 5, Channel := 1,
            CommandID := 2, Payload := some [0, 1],
            Command := some (Command.ServerHello false true) }).trace,
          ∃ s v, q.Command = some (Command.ClientFirstSRP s v))) :=
  ⟨refEnv_wf,
   (hello_paths_follow_flags refWorld refEnv refEnv_wf refHandler
      { Packet.zero with
        PacketType := 3, SubType := 1, PeerID := 1, SeqNr := 5, Channel := 1,
        CommandID := 2, Payload := some [0, 1],
        Command := some (Command.ServerHello false true) }
      false true rfl (by decide) rfl rfl (fun _ _ => rfl) (fun _ => rfl) (fun _ => rfl)).2.2
      (Or.inl rfl)⟩


/-! ## Fan-out -/

theorem offer_then_take (l : Listener) (e : Command) (es : List Command) :
    (l.offer e).cap = l.cap ∧
    (l.offer e).buf ++ es.take ((l.offer e).cap - (l.offer e).buf.length) =
      l.buf ++ (e :: es).take (l.cap - l.buf.length) := by
  unfold Listener.offer
  by_cases h : l.buf.length < l.cap
  · obtain ⟨k, hk⟩ : ∃ k, l.cap - l.buf.length = k + 1 := ⟨l.cap - l.buf.length - 1, by omega⟩
    have hk2 : l.cap - (l.buf.length + 1) = k := by omega
    simp [h, hk, hk2]
  · have h0 : l.cap - l.buf.length = 0 := by omega
    simp [h, h0]

theorem emitAll_listeners (es : List Command) (c : Client) :
    (c.emitAll es).listeners =
      c.listeners.map fun l =>
        { l with buf := l.buf ++ es.take (l.cap - l.buf.length) } := by
  induction es generalizing c with
  | nil => simp [Client.emitAll]
  | cons e es ih =>
    have hstep : c.emitAll (e :: es) = (c.emitCommand e).emitAll es := rfl
    rw [hstep, ih]
    simp only [Client.emitCommand, List.map_map]
    apply List.map_congr_left
    intro l _
    have h := offer_then_take l e es
    have h2 := h.2
    rw [h.1] at h2
    simp only [Function.comp_apply, h.1, h2]

/-- C7 (lossy fan-out). Let `N + 1` events be emitted in a row with nobody
receiving. Every listener stays registered at its position; a listener of
capacity `N` that was empty then holds exactly the first `N` events in
emission order, the last one having been dropped for it; a listener with at
least `N + 1` free slots holds what it held before followed by all `N + 1`
events in order, whatever the other listeners are. `emitAll` and
`emitCommand` are total functions: emitting never blocks. -/
theorem lossy_fan_out (c : Client) (N : Nat) (es : List Command) (hN : es.length = N + 1)
    (i : Nat) (l : Listener) (hl : c.listeners[i]? = some l) :
    (c.emitAll es).listeners.length = c.listeners.length ∧
    (l.cap = N → l.buf = [] →
      (c.emitAll es).listeners[i]? = some { l with buf := es.take N } ∧
      (es.take N).length = N ∧ es.take N ++ es.drop N = es ∧ (es.drop N).length = 1) ∧
    (N + 1 ≤ l.cap - l.buf.length →
      (c.emitAll es).listeners[i]? = some { l with buf := l.buf ++ es }) := by
  rw [emitAll_listeners]
  refine ⟨by simp, fun hc hb => ⟨?_, ?_, ?_, ?_⟩, fun hfree => ?_⟩
  · simp [hl, hc, hb]
  · simp [hN]
  · simp
  · simp [hN]
  · have ht : es.take (l.cap - l.buf.length) = es := List.take_of_length_le (by omega)
    simp [hl, ht]

/-- Witness of C7 with `N = 2`: three events, a listener of capacity 2 and a
listener of capacity 5 that already holds one event. -/
theorem lossy_fan_out_witness :
    ((fanOutClient.emitAll
        [Command.ServerSetPeer 1, Command.ServerSetPeer 2, Command.ServerSetPeer 3]).listeners[0]? =
      some { cap := 2, buf := [Command.ServerSetPeer 1, Command.ServerSetPeer 2] }) ∧
    ((fanOutClient.emitAll
        [Command.ServerSetPeer 1, Command.ServerSetPeer 2, Command.ServerSetPeer 3]).listeners[1]? =
      some { cap := 5, buf := [Command.ServerAuthAccept, Command.ServerSetPeer 1,
        Command.ServerSetPeer 2, Command.ServerSetPeer 3] }) :=
  ⟨((lossy_fan_out fanOutClient 2 [Command.ServerSetPeer 1, Command.ServerSetPeer 2,
      Command.ServerSetPeer 3] rfl 0 { cap := 2, buf := [] } rfl).2.1 rfl rfl).1,
   (lossy_fan_out fanOutClient 2 [Command.ServerSetPeer 1, Command.ServerSetPeer 2,
      Command.ServerSetPeer 3] rfl 1 { cap := 5, buf := [Command.ServerAuthAccept] } rfl).2.2
      (by decide)⟩



/-! ## The connection engine -/

theorem send_frame (D : ClientDeps) (E : Env) (c : Client) (p : Packet) :
    (c.Send D E p).1.PeerID = c.PeerID ∧ (c.Send D E p).1.emitted = c.emitted ∧
    (c.Send D E p).1.listeners = c.listeners := by
  unfold Client.Send
  dsimp only
  split
  · simp
  · simp
  · split <;> simp

theorem handleCommandPayload_frame (D : ClientDeps) (E : Env) (c : Client)
    (payload : List Nat) :
    (c.handleCommandPayload D E payload).1.PeerID = c.PeerID ∧
    c.emitted <+: (c.handleCommandPayload D E payload).1.emitted := by
  unfold Client.handleCommandPayload
  split
  · simp
  · split
    · simp
    · split
      · simp
      · simp
      · split <;> simp [Client.emitCommand]

theorem andThen_frame (c : Client) (r : Client × Status) (k : Client → Client × Status)
    (hr : r.1.PeerID = c.PeerID ∧ c.emitted <+: r.1.emitted)
    (hk : ∀ c', (k c').1.PeerID = c'.PeerID ∧ c'.emitted <+: (k c').1.emitted) :
    (andThen r k).1.PeerID = c.PeerID ∧ c.emitted <+: (andThen r k).1.emitted := by
  unfold andThen
  split
  · exact ⟨(hk r.1).1.trans hr.1, hr.2.trans (hk r.1).2⟩
  · exact hr

theorem onReceive_tail_frame (D : ClientDeps) (E : Env) (c : Client) (p : Packet) :
    (andThen (c.onReceiveAck D E p) fun c =>
      andThen (c.onReceivePayload D E p) fun c => c.onReceiveSplit D E p).1.PeerID = c.PeerID ∧
    c.emitted <+: (andThen (c.onReceiveAck D E p) fun c =>
      andThen (c.onReceivePayload D E p) fun c => c.onReceiveSplit D E p).1.emitted := by
  apply andThen_frame
  · unfold Client.onReceiveAck
    split
    · have h := send_frame D E c { D.CreateControlAck c.PeerID p with Channel := p.Channel }
      exact ⟨h.1, by rw [h.2.1]⟩
    · simp
  · intro c1
    apply andThen_frame
    · unfold Client.onReceivePayload
      split
      · exact handleCommandPayload_frame D E c1 _
      · simp
    · intro c2
      unfold Client.onReceiveSplit
      split
      · dsimp only
        split
        · exact handleCommandPayload_frame D E { c2 with splits := c2.splits ++ [p.SplitPayload] } _
        · simp
      · simp

/-- C8, counterexample. A packet of packet type Control with control type
SetPeerID and peer id 257 leaves the client as it was, with `PeerID = 0` and
nothing emitted; and the datagram of packet type Control with control type
SetPeerID sent with envelope peer id 257 is decoded without its control type
and leaves the client unchanged as well. -/
theorem onReceive_control_setpeerid_ignored :
    refClient.onReceive refDeps refEnv
        { Packet.zero with
          PacketType := refEnv.Control, ControlType := refEnv.SetPeerID, PeerID := 257 } =
      (refClient, Status.ok) ∧
    refClient.PeerID = 0 ∧ refClient.emitted = [] ∧
    Parse refEnv [0x4f, 0x45, 0x74, 0x03, 1, 1, 0, 0, 1, 0, 0] =
      some ({ Packet.zero with PeerID := 257 }, none) ∧
    refClient.onReceive refDeps refEnv { Packet.zero with PeerID := 257 } =
      (refClient, Status.ok) := by
  refine ⟨?_, ?_, ?_, ?_, ?_⟩ <;> decide

/-- C8, amended. For an inbound packet whose control type is SetPeerID: when
its packet type is Reliable or Original, after `onReceive` (however the call
ends) the client's `PeerID` is the peer id of the packet and the first event
emitted by the call is a `ServerSetPeer` with that peer id; when moreover the
sub-type is Control, as in a decoded Reliable/Control/SetPeerID datagram,
this is the only event emitted and it is offered once to every listener.
When the packet type is Control the client's `PeerID` is left unchanged, and
with sub-type Control the whole client is left unchanged. -/
theorem onReceive_setPeerID (D : ClientDeps) (E : Env) (hE : E.WF) (c : Client) (p : Packet)
    (hC : p.ControlType = E.SetPeerID) :
    ((p.PacketType = E.Reliable ∨ p.PacketType = E.Original) →
      (c.onReceive D E p).1.PeerID = p.PeerID ∧
      (c.emitted ++ [Command.ServerSetPeer p.PeerID]) <+: (c.onReceive D E p).1.emitted ∧
      (p.SubType = E.Control →
        (c.onReceive D E p).1.emitted = c.emitted ++ [Command.ServerSetPeer p.PeerID] ∧
        (c.onReceive D E p).1.listeners =
          c.listeners.map fun l => l.offer (Command.ServerSetPeer p.PeerID))) ∧
    (p.PacketType = E.Control →
      (c.onReceive D E p).1.PeerID = c.PeerID ∧
      (p.SubType = E.Control → c.onReceive D E p = (c, Status.ok))) := by
  have hd := hE.types_distinct
  simp at hd
  have h1 : E.Control ≠ E.Reliable := by omega
  have h2 : E.Control ≠ E.Original := by omega
  have h3 : E.Control ≠ E.Split := by omega
  refine ⟨fun hT => ?_, fun hT => ?_⟩
  · have hfirst : c.onReceiveSetPeerID E p =
        ({ c with PeerID := p.PeerID } : Client).emitCommand
          (Command.ServerSetPeer p.PeerID) := by
      simp [Client.onReceiveSetPeerID, hT, hC]
    have hframe := onReceive_tail_frame D E (c.onReceiveSetPeerID E p) p
    refine ⟨?_, ?_, fun hU => ?_⟩
    · show (andThen _ _).1.PeerID = _
      rw [hframe.1, hfirst]
      rfl
    · have hem : (c.onReceiveSetPeerID E p).emitted =
          c.emitted ++ [Command.ServerSetPeer p.PeerID] := by
        rw [hfirst]
        rfl
      rw [← hem]
      exact hframe.2
    · have htail : c.onReceive D E p =
          (c.onReceiveSetPeerID E p).onReceiveAck D E p := by
        unfold Client.onReceive andThen
        simp only
        split
        · rename_i heq
          simp [Client.onReceivePayload, Client.onReceiveSplit, andThen, hU, h1, h2, h3,
            Prod.ext_iff, heq]
        · rfl
      rw [htail]
      unfold Client.onReceiveAck
      split
      · have h := send_frame D E (c.onReceiveSetPeerID E p)
          { D.CreateControlAck (c.onReceiveSetPeerID E p).PeerID p with Channel := p.Channel }
        rw [h.2.1, h.2.2, hfirst]
        exact ⟨rfl, rfl⟩
      · rw [hfirst]
        exact ⟨rfl, rfl⟩
  · have hfirst : c.onReceiveSetPeerID E p = c := by
      simp [Client.onReceiveSetPeerID, hT, h1, h2]
    refine ⟨?_, fun hU => ?_⟩
    · have hframe := onReceive_tail_frame D E (c.onReceiveSetPeerID E p) p
      show (andThen _ _).1.PeerID = _
      rw [hframe.1, hfirst]
    · simp [Client.onReceive, hfirst, Client.onReceiveAck, Client.onReceivePayload,
        Client.onReceiveSplit, andThen, hT, hU, h1, h2, h3]

/-- Witness of C8 (amended): the Reliable/Control/SetPeerID packet assigning
257, as `Parse` returns it, stores `PeerID = 257`. -/
theorem onReceive_setPeerID_witness :
    refEnv.WF ∧
    (refClient.onReceive refDeps refEnv
      { Packet.zero with
        PeerID := 257, Channel := 0, PacketType := 3,
        SeqNr := 65500, SubType := 0, ControlType := 1 }).1.PeerID = 257 ∧
    (refClient.onReceive refDeps refEnv
      { Packet.zero with
        PeerID := 257, Channel := 0, PacketType := 3,
        SeqNr := 65500, SubType := 0, ControlType := 1 }).1.emitted =
      [Command.ServerSetPeer 257] :=
  ⟨refEnv_wf,
   ((onReceive_setPeerID refDeps refEnv refEnv_wf refClient
      { Packet.zero with
        PeerID := 257, Channel := 0, PacketType := 3,
        SeqNr := 65500, SubType := 0, ControlType := 1 } rfl).1 (Or.inl rfl)).1,
   (((onReceive_setPeerID refDeps refEnv refEnv_wf refClient
      { Packet.zero with
        PeerID := 257, Channel := 0, PacketType := 3,
        SeqNr := 65500, SubType := 0, ControlType := 1 } rfl).1 (Or.inl rfl)).2.2 rfl).1⟩



/-! ## What a successful decode has populated -/

theorem unmarshalControl_fields (E : Env) (p q : Packet) (data : List Nat) (err : Option String)
    (h : unmarshalControl E p data = some (q, err)) :
    err = none ∧ index data 11 = some q.ControlType ∧ q.Payload = p.Payload ∧
    q.SplitPayload = p.SplitPayload ∧ q.CommandID = p.CommandID ∧ q.Command = p.Command ∧
    q.PacketType = p.PacketType ∧ q.SubType = p.SubType := by
  unfold unmarshalControl at h
  cases hct : index data 11 with
  | none => simp [hct] at h
  | some ct =>
    simp only [hct, Option.bind_eq_bind, Option.some_bind] at h
    split at h
    · cases hs : sliceFrom data 12 with
      | none => simp [hs] at h
      | some b =>
        cases hv : Uint16 b with
        | none => simp [hs, hv] at h
        | some v =>
          simp [hs, hv] at h
          obtain ⟨rfl, rfl⟩ := h
          simp
    · simp at h
      obtain ⟨rfl, rfl⟩ := h
      simp

theorem unmarshalSplit_fields (p q : Packet) (data : List Nat) (err : Option String)
    (h : unmarshalSplit p data = some (q, err)) :
    err = none ∧
    (∃ b1 b2 b3 tail, sliceFrom data 11 = some b1 ∧ sliceFrom data 13 = some b2 ∧
      sliceFrom data 15 = some b3 ∧ sliceFrom data 17 = some tail ∧
      ∃ v1 v2 v3, Uint16 b1 = some v1 ∧ Uint16 b2 = some v2 ∧ Uint16 b3 = some v3 ∧
      q.SplitPayload = some { SeqNr := v1, ChunkCount := v2, ChunkNumber := v3, Data := tail }) ∧
    q.Payload = p.Payload ∧ q.ControlType = p.ControlType ∧ q.CommandID = p.CommandID ∧
    q.Command = p.Command ∧ q.PacketType = p.PacketType ∧ q.SubType = p.SubType := by
  unfold unmarshalSplit at h
  cases h1 : sliceFrom data 11 with
  | none => simp [h1] at h
  | some b1 =>
  cases hv1 : Uint16 b1 with
  | none => simp [h1, hv1] at h
  | some v1 =>
  cases h2 : sliceFrom data 13 with
  | none => simp [h1, hv1, h2] at h
  | some b2 =>
  cases hv2 : Uint16 b2 with
  | none => simp [h1, hv1, h2, hv2] at h
  | some v2 =>
  cases h3 : sliceFrom data 15 with
  | none => simp [h1, hv1, h2, hv2, h3] at h
  | some b3 =>
  cases hv3 : Uint16 b3 with
  | none => simp [h1, hv1, h2, hv2, h3, hv3] at h
  | some v3 =>
  cases h4 : sliceFrom data 17 with
  | none => simp [h1, hv1, h2, hv2, h3, hv3, h4] at h
  | some tail =>
    simp [h1, hv1, h2, hv2, h3, hv3, h4] at h
    obtain ⟨rfl, rfl⟩ := h
    exact ⟨rfl, ⟨b1, b2, b3, tail, rfl, rfl, rfl, rfl, v1, v2, v3, hv1, hv2, hv3, rfl⟩,
      rfl, rfl, rfl, rfl, rfl, rfl⟩

theorem unmarshalDefault_fields (E : Env) (p q : Packet) (data : List Nat) (err : Option String)
    (h : unmarshalDefault E p data = some (q, err)) :
    (∃ b payload, sliceFrom data 11 = some b ∧ Uint16 b = some q.CommandID ∧
      sliceFrom data 13 = some payload ∧ q.Payload = some payload ∧
      q.Command = (E.CreateCommand q.CommandID payload).1 ∧
      err = (E.CreateCommand q.CommandID payload).2) ∧
    q.SplitPayload = p.SplitPayload ∧ q.ControlType = p.ControlType ∧
    q.PacketType = p.PacketType ∧ q.SubType = p.SubType := by
  unfold unmarshalDefault at h
  cases h1 : sliceFrom data 11 with
  | none => simp [h1] at h
  | some b =>
  cases hv : Uint16 b with
  | none => simp [h1, hv] at h
  | some v =>
  cases h2 : sliceFrom data 13 with
  | none => simp [h1, hv, h2] at h
  | some payload =>
    simp [h1, hv, h2] at h
    obtain ⟨rfl, rfl⟩ := h
    exact ⟨⟨b, payload, rfl, hv, rfl, rfl, rfl, rfl⟩, rfl, rfl, rfl, rfl⟩


theorem unmarshalReliable_cases (E : Env) (p q : Packet) (data : List Nat)
    (err : Option String) (h : unmarshalReliable E p data = some (q, err)) :
    ∃ seq st, index data 10 = some st ∧
      ((st = E.Control ∧
          unmarshalControl E { p with SeqNr := seq, SubType := st } data = some (q, err)) ∨
       (st ≠ E.Control ∧ st = E.Split ∧
          unmarshalSplit { p with SeqNr := seq, SubType := st } data = some (q, err)) ∨
       (st ≠ E.Control ∧ st ≠ E.Split ∧
          unmarshalDefault E { p with SeqNr := seq, SubType := st } data = some (q, err))) := by
  unfold unmarshalReliable at h
  cases h1 : sliceFrom data 8 with
  | none => simp [h1] at h
  | some b =>
  cases hv : Uint16 b with
  | none => simp [h1, hv] at h
  | some v =>
  cases hst : index data 10 with
  | none => simp [h1, hv, hst] at h
  | some st =>
    simp only [h1, hv, hst, Option.bind_eq_bind, Option.some_bind] at h
    refine ⟨v, st, rfl, ?_⟩
    by_cases hc : st = E.Control
    · simp only [hc, if_true] at h
      exact Or.inl ⟨hc, by rw [hc]; exact h⟩
    · simp only [hc, if_false] at h
      by_cases hs : st = E.Split
      · simp only [hs, if_true] at h
        exact Or.inr (Or.inl ⟨hc, hs, by rw [hs]; exact h⟩)
      · simp only [hs, if_false] at h
        exact Or.inr (Or.inr ⟨hc, hs, h⟩)

theorem parse_cases (E : Env) (data : List Nat) (q : Packet) (err : Option String)
    (h : Parse E data = some (q, err)) :
    (q = Packet.zero ∧ ∃ msg, err = some msg) ∨
    ∃ peer ch ty,
      (ty = E.Reliable ∧
        unmarshalReliable E
          { Packet.zero with PeerID := peer, Channel := ch, PacketType := ty } data =
            some (q, err)) ∨
      (ty ≠ E.Reliable ∧ err = none ∧
        q = { Packet.zero with PeerID := peer, Channel := ch, PacketType := ty }) := by
  unfold Parse Packet.UnmarshalPacket at h
  split at h
  · simp at h
    exact Or.inl ⟨h.1.symm, _, h.2.symm⟩
  · cases hc : checkProtocolID E.ProtocolID data 0 with
    | none => simp [hc] at h
    | some r =>
      cases r with
      | some msg =>
        simp [hc] at h
        exact Or.inl ⟨h.1.symm, _, h.2.symm⟩
      | none =>
        cases h1 : sliceFrom data 4 with
        | none => simp [hc, h1] at h
        | some b =>
        cases hv : Uint16 b with
        | none => simp [hc, h1, hv] at h
        | some v =>
        cases h6 : index data 6 with
        | none => simp [hc, h1, hv, h6] at h
        | some ch =>
        cases h7 : index data 7 with
        | none => simp [hc, h1, hv, h6, h7] at h
        | some ty =>
          simp only [hc, h1, hv, h6, h7, Option.bind_eq_bind, Option.some_bind] at h
          refine Or.inr ⟨v, ch, ty, ?_⟩
          by_cases hr : ty = E.Reliable
          · simp only [hr, if_true] at h
            exact Or.inl ⟨hr, by rw [hr]; exact h⟩
          · simp only [hr, if_false] at h
            simp at h
            exact Or.inr ⟨hr, h.2.symm, h.1.symm⟩


theorem unmarshal_reliable_split (E : Env) (hE : E.ProtocolID.length = 4)
    (hcs : E.Split ≠ E.Control) (p : Packet)
    (ph pl ch sh sl s1 s2 c1 c2 n1 n2 : Nat) (tail : List Nat) :
    p.UnmarshalPacket E
        (E.ProtocolID ++ ph :: pl :: ch :: E.Reliable :: sh :: sl :: E.Split ::
          s1 :: s2 :: c1 :: c2 :: n1 :: n2 :: tail) =
      some ({ p with
          PeerID := pl + ph * 256, Channel := ch, PacketType := E.Reliable,
          SeqNr := sl + sh * 256, SubType := E.Split,
          SplitPayload := some
            { SeqNr := s2 + s1 * 256, ChunkCount := c2 + c1 * 256,
              ChunkNumber := n2 + n1 * 256, Data := tail } }, none) := by
  rw [unmarshal_envelope E hE]
  obtain ⟨a, b, c, d, hm⟩ := list_length_four hE
  simp [unmarshalReliable, unmarshalSplit, hm, index, sliceFrom, Uint16, hcs]

/-- C11, counterexample. The datagram of an Original packet carrying command
id 2 and the payload `01 00` decodes successfully with command id 0, no
payload and no command: none of the three content parts is populated. -/
theorem original_packet_content_not_decoded :
    Parse refEnv [0x4f, 0x45, 0x74, 0x03, 0, 1, 1, 1, 0, 2, 1, 0] =
      some ({ Packet.zero with PeerID := 1, Channel := 1, PacketType := refEnv.Original },
        none) ∧
    ({ Packet.zero with PeerID := 1, Channel := 1, PacketType := refEnv.Original } :
        Packet).CommandID = 0 ∧
    ({ Packet.zero with PeerID := 1, Channel := 1, PacketType := refEnv.Original } :
        Packet).Payload = none ∧
    ({ Packet.zero with PeerID := 1, Channel := 1, PacketType := refEnv.Original } :
        Packet).SplitPayload = none := by
  refine ⟨?_, ?_, ?_, ?_⟩ <;> rfl

/-- C11, amended. A packet that `Parse` returns without error has its
content parts populated as follows. With packet type Reliable: for sub-type
Control the control type is byte 11 of the input and payload, command id,
command and split fragment are empty; for sub-type Split the split fragment is
set and payload, command id, command and control type are empty; for every
other sub-type (Original among them) the payload is set to the input from
offset 13 on, with the command id, and split fragment and control type are
empty. With any other packet type (Control, Original) none of the parts is
populated. -/
theorem decoded_content (E : Env) (data : List Nat) (q : Packet)
    (h : Parse E data = some (q, none)) :
    (q.PacketType = E.Reliable →
      (q.SubType = E.Control →
        index data 11 = some q.ControlType ∧ q.Payload = none ∧ q.CommandID = 0 ∧
        q.Command = none ∧ q.SplitPayload = none) ∧
      (q.SubType ≠ E.Control → q.SubType = E.Split →
        (∃ spl, q.SplitPayload = some spl) ∧ q.Payload = none ∧ q.CommandID = 0 ∧
        q.Command = none ∧ q.ControlType = 0) ∧
      (q.SubType ≠ E.Control → q.SubType ≠ E.Split →
        (∃ payload, q.Payload = some payload ∧ sliceFrom data 13 = some payload) ∧
        (∃ b, sliceFrom data 11 = some b ∧ Uint16 b = some q.CommandID) ∧
        q.SplitPayload = none ∧ q.ControlType = 0)) ∧
    (q.PacketType ≠ E.Reliable →
      q.Payload = none ∧ q.CommandID = 0 ∧ q.Command = none ∧ q.SplitPayload = none ∧
      q.ControlType = 0) := by
  rcases parse_cases E data q none h with ⟨_, msg, hmsg⟩ | ⟨peer, ch, ty, hcase⟩
  · cases hmsg
  · rcases hcase with ⟨hty, hrel⟩ | ⟨hty, _, hq⟩
    · obtain ⟨seq, st, _, hbranch⟩ := unmarshalReliable_cases E _ q data none hrel
      rcases hbranch with ⟨hst, hb⟩ | ⟨hst1, hst2, hb⟩ | ⟨hst1, hst2, hb⟩
      · have f := unmarshalControl_fields E _ q data none hb
        obtain ⟨_, f1, f2, f3, f4, f5, f6, f7⟩ := f
        have hsub : q.SubType = E.Control := by rw [f7]; exact hst
        refine ⟨fun _ => ⟨fun _ => ⟨f1, ?_, ?_, ?_, ?_⟩, fun hn => absurd hsub hn,
          fun hn => absurd hsub hn⟩, fun hn => ?_⟩
        · rw [f2]; rfl
        · rw [f4]; rfl
        · rw [f5]; rfl
        · rw [f3]; rfl
        · exact absurd (by rw [f6]; exact hty) hn
      · have f := unmarshalSplit_fields _ q data none hb
        obtain ⟨_, ⟨b1, b2, b3, tail, _, _, _, _, v1, v2, v3, _, _, _, fs⟩, f2, f3, f4, f5, f6,
          f7⟩ := f
        have hsub : q.SubType = st := by rw [f7]
        refine ⟨fun _ => ⟨fun hc => absurd (hsub ▸ hc) hst1,
          fun _ _ => ⟨⟨_, fs⟩, ?_, ?_, ?_, ?_⟩,
          fun _ hn => absurd (hsub.trans hst2) hn⟩, fun hn => ?_⟩
        · rw [f2]; rfl
        · rw [f4]; rfl
        · rw [f5]; rfl
        · rw [f3]; rfl
        · exact absurd (by rw [f6]; exact hty) hn
      · have f := unmarshalDefault_fields E _ q data none hb
        obtain ⟨⟨b, payload, g1, g2, g3, g4, _, _⟩, f2, f3, f6, f7⟩ := f
        have hsub : q.SubType = st := by rw [f7]
        refine ⟨fun _ => ⟨fun hc => absurd (hsub ▸ hc) hst1,
          fun _ hs => absurd (hsub ▸ hs) hst2,
          fun _ _ => ⟨⟨payload, g4, g3⟩, ⟨b, g1, g2⟩, ?_, ?_⟩⟩, fun hn => ?_⟩
        · rw [f2]; rfl
        · rw [f3]; rfl
        · exact absurd (by rw [f6]; exact hty) hn
    · subst hq
      refine ⟨fun hr => absurd hr hty, fun _ => ⟨rfl, rfl, rfl, rfl, rfl⟩⟩

/-- Witness of C11 (amended): the Reliable/Control/SetPeerID datagram
assigning peer id 257 has its control type populated and nothing else. -/
theorem decoded_content_witness :
    Parse refEnv [0x4f, 0x45, 0x74, 0x03, 0, 1, 0, 3, 0xff, 0xdc, 0, 1, 1, 1] =
      some ({ Packet.zero with
        PeerID := 257, Channel := 0, PacketType := 3,
        SeqNr := 65500, SubType := 0, ControlType := 1 }, none) ∧
    index [0x4f, 0x45, 0x74, 0x03, 0, 1, 0, 3, 0xff, 0xdc, 0, 1, 1, 1] 11 =
      some ({ Packet.zero with
        PeerID := 257, Channel := 0, PacketType := 3,
        SeqNr := 65500, SubType := 0, ControlType := 1 } : Packet).ControlType ∧
    ({ Packet.zero with
        PeerID := 257, Channel := 0, PacketType := 3,
        SeqNr := 65500, SubType := 0, ControlType := 1 } : Packet).Payload = none :=
  ⟨by decide,
   (((decoded_content refEnv
        [0x4f, 0x45, 0x74, 0x03, 0, 1, 0, 3, 0xff, 0xdc, 0, 1, 1, 1]
        { Packet.zero with
          PeerID := 257, Channel := 0, PacketType := 3,
          SeqNr := 65500, SubType := 0, ControlType := 1 } (by decide)).1 rfl).1 rfl).1,
   (((decoded_content refEnv
        [0x4f, 0x45, 0x74, 0x03, 0, 1, 0, 3, 0xff, 0xdc, 0, 1, 1, 1]
        { Packet.zero with
          PeerID := 257, Channel := 0, PacketType := 3,
          SeqNr := 65500, SubType := 0, ControlType := 1 } (by decide)).1 rfl).1 rfl).2.1⟩


/-- C12, counterexample. A Reliable/Split datagram whose fragment header
says chunk count 2 and chunk number 9 decodes without error, and the returned
fragment has `ChunkNumber = 9` and `ChunkCount = 2`. -/
theorem split_fragment_not_validated :
    Parse refEnv
        [0x4f, 0x45, 0x74, 0x03, 0, 1, 1, 3, 0, 5, 2, 0, 7, 0, 2, 0, 9, 0xaa, 0xbb] =
      some ({ Packet.zero with
          PeerID := 1, Channel := 1, PacketType := 3, SeqNr := 5, SubType := 2,
          SplitPayload := some
            { SeqNr := 7, ChunkCount := 2, ChunkNumber := 9, Data := [0xaa, 0xbb] } },
        none) ∧
    ¬ (9 < 2) := by
  refine ⟨?_, ?_⟩ <;> decide

/-- C12, amended. `UnmarshalPacket` copies the fragment header of a
Reliable/Split datagram without checking it: decoding succeeds for every
header, the returned fragment has the sequence number of bytes 11-12, the
chunk count of bytes 13-14, the chunk number of bytes 15-16 and the data from
offset 17 on, so `ChunkNumber < ChunkCount` holds for the decoded fragment
exactly when it holds for the header that was sent. -/
theorem split_fragment_decoded (E : Env) (hE : E.WF)
    (ph pl ch sh sl s1 s2 c1 c2 n1 n2 : Nat) (tail : List Nat) :
    Parse E (E.ProtocolID ++ ph :: pl :: ch :: E.Reliable :: sh :: sl :: E.Split ::
        s1 :: s2 :: c1 :: c2 :: n1 :: n2 :: tail) =
      some ({ Packet.zero with
          PeerID := pl + ph * 256, Channel := ch, PacketType := E.Reliable,
          SeqNr := sl + sh * 256, SubType := E.Split,
          SplitPayload := some
            { SeqNr := s2 + s1 * 256, ChunkCount := c2 + c1 * 256,
              ChunkNumber := n2 + n1 * 256, Data := tail } }, none) ∧
    ∀ q spl, Parse E (E.ProtocolID ++ ph :: pl :: ch :: E.Reliable :: sh :: sl :: E.Split ::
        s1 :: s2 :: c1 :: c2 :: n1 :: n2 :: tail) = some (q, none) →
      q.SplitPayload = some spl →
      (spl.ChunkNumber < spl.ChunkCount ↔ n2 + n1 * 256 < c2 + c1 * 256) := by
  have hd := hE.types_distinct
  simp at hd
  have hcs : E.Split ≠ E.Control := fun h => hd.1.2.1 h.symm
  have key := unmarshal_reliable_split E hE.marker_len hcs Packet.zero
    ph pl ch sh sl s1 s2 c1 c2 n1 n2 tail
  refine ⟨key, fun q spl hq hs => ?_⟩
  rw [Parse, key] at hq
  simp only [Option.some.injEq, Prod.mk.injEq, and_true] at hq
  subst hq
  simp only [Option.some.injEq] at hs
  subst hs
  exact Iff.rfl

/-- Witness of C12 (amended): fragment 1 of 2. -/
theorem split_fragment_decoded_witness :
    refEnv.WF ∧
    Parse refEnv
        [0x4f, 0x45, 0x74, 0x03, 0, 1, 1, 3, 0, 5, 2, 0, 7, 0, 2, 0, 1, 0xaa, 0xbb] =
      some ({ Packet.zero with
          PeerID := 1, Channel := 1, PacketType := 3, SeqNr := 5, SubType := 2,
          SplitPayload := some
            { SeqNr := 7, ChunkCount := 2, ChunkNumber := 1, Data := [0xaa, 0xbb] } },
        none) :=
  ⟨refEnv_wf, (split_fragment_decoded refEnv refEnv_wf 0 1 1 0 5 0 7 0 2 0 1 [0xaa, 0xbb]).1⟩

/-- C13 (unknown command). For a Reliable datagram of at least 13 bytes with
sub-type Original whose command id (bytes 11-12) and payload the registry
function `CreateCommand` rejects with an error, `UnmarshalPacket` returns that
error, and the packet `Parse` returns with it carries the envelope fields
(peer id, channel, packet type), the sequence number and sub-type, the command
id read from bytes 11-12 and, as raw payload, all input bytes from offset 13
on. -/
theorem unknown_command_keeps_payload (E : Env) (hE : E.WF)
    (ph pl ch sh sl ih il : Nat) (payload : List Nat) (e : String)
    (herr : (E.CreateCommand (il + ih * 256) payload).2 = some e) :
    Parse E (E.ProtocolID ++ ph :: pl :: ch :: E.Reliable :: sh :: sl :: E.Original ::
        ih :: il :: payload) =
      some ({ Packet.zero with
          PeerID := pl + ph * 256, Channel := ch, PacketType := E.Reliable,
          SeqNr := sl + sh * 256, SubType := E.Original, CommandID := il + ih * 256,
          Payload := some payload,
          Command := (E.CreateCommand (il + ih * 256) payload).1 }, some e) ∧
    (E.ProtocolID ++ ph :: pl :: ch :: E.Reliable :: sh :: sl :: E.Original ::
        ih :: il :: payload).drop 13 = payload ∧
    (E.ProtocolID ++ ph :: pl :: ch :: E.Reliable :: sh :: sl :: E.Original ::
        ih :: il :: payload).drop 11 = ih :: il :: payload ∧
    13 ≤ (E.ProtocolID ++ ph :: pl :: ch :: E.Reliable :: sh :: sl :: E.Original ::
        ih :: il :: payload).length := by
  have hd := hE.types_distinct
  simp at hd
  have h1 : E.Original ≠ E.Control := fun h => hd.1.1 h.symm
  have h2 : E.Original ≠ E.Split := hd.2.1.1
  obtain ⟨a, b, c, d, hm⟩ := list_length_four hE.marker_len
  refine ⟨?_, ?_, ?_, ?_⟩
  · rw [Parse, unmarshal_reliable_default E hE.marker_len _ _ _ _ _ _ _ _ _ _ h1 h2, herr]
  · simp [hm]
  · simp [hm]
  · simp [hm]

/-- Witness of C13: command id `0x77` is not in the reference registry. -/
theorem unknown_command_keeps_payload_witness :
    refEnv.WF ∧
    Parse refEnv [0x4f, 0x45, 0x74, 0x03, 0, 1, 1, 3, 0, 5, 1, 0, 0x77, 9, 8] =
      some ({ Packet.zero with
          PeerID := 1, Channel := 1, PacketType := 3, SeqNr := 5, SubType := 1,
          CommandID := 0x77, Payload := some [9, 8], Command := none },
        some "unknown command") :=
  ⟨refEnv_wf,
   (unknown_command_keeps_payload refEnv refEnv_wf 0 1 1 0 5 0 0x77 [9, 8]
      "unknown command" rfl).1⟩



/-! ## The parse loop -/

theorem parseLoop_append (D : ClientDeps) (E : Env) (pre more : List (List Nat)) (c : Client) :
    Client.parseLoop D E (pre ++ more) c =
      match Client.parseLoop D E pre c with
      | (c1, LoopExit.drained) => Client.parseLoop D E more c1
      | (c1, LoopExit.panicked unread) => (c1, LoopExit.panicked (unread ++ more)) := by
  induction pre generalizing c with
  | nil => simp [Client.parseLoop]
  | cons buf rest ih =>
    simp only [List.cons_append, Client.parseLoop]
    cases hp : Parse E buf with
    | none => simp
    | some r =>
      obtain ⟨p, err⟩ := r
      cases err with
      | some msg => simp
      | none =>
        simp only
        cases hr : c.onReceive D E p with
        | mk c1 st =>
          cases st with
          | ok => exact ih c1
          | err msg => simp
          | panic => simp

/-- C14, counterexample. With a datagram whose marker is wrong in front of
the Reliable/Control/SetPeerID datagram that assigns peer id 257, `parseLoop`
panics at the first datagram and never reads the second: the client is
unchanged, with `PeerID = 0`. The same happens behind a Reliable datagram
whose command id the registry does not know. Without the bad datagram the
loop drains the queue and stores peer id 257. -/
theorem parseLoop_panics_on_decode_error :
    Client.parseLoop refDeps refEnv
        [[0, 0, 0, 0, 0, 1, 0, 3],
         [0x4f, 0x45, 0x74, 0x03, 0, 1, 0, 3, 0xff, 0xdc, 0, 1, 1, 1]] refClient =
      (refClient,
        LoopExit.panicked [[0x4f, 0x45, 0x74, 0x03, 0, 1, 0, 3, 0xff, 0xdc, 0, 1, 1, 1]]) ∧
    Client.parseLoop refDeps refEnv
        [[0x4f, 0x45, 0x74, 0x03, 0, 1, 1, 3, 0, 5, 1, 0, 0x77, 9, 8],
         [0x4f, 0x45, 0x74, 0x03, 0, 1, 0, 3, 0xff, 0xdc, 0, 1, 1, 1]] refClient =
      (refClient,
        LoopExit.panicked [[0x4f, 0x45, 0x74, 0x03, 0, 1, 0, 3, 0xff, 0xdc, 0, 1, 1, 1]]) ∧
    refClient.PeerID = 0 ∧
    (Client.parseLoop refDeps refEnv
        [[0x4f, 0x45, 0x74, 0x03, 0, 1, 0, 3, 0xff, 0xdc, 0, 1, 1, 1]] refClient).2 =
      LoopExit.drained ∧
    (Client.parseLoop refDeps refEnv
        [[0x4f, 0x45, 0x74, 0x03, 0, 1, 0, 3, 0xff, 0xdc, 0, 1, 1, 1]] refClient).1.PeerID =
      257 := by
  refine ⟨?_, ?_, ?_, ?_, ?_⟩ <;> decide

theorem handleCommandPayload_unknown (D : ClientDeps) (E : Env) (c : Client)
    (payload body : List Nat) (id : Nat)
    (h1 : Uint16 payload = some id) (h2 : sliceFrom payload 2 = some body)
    (h3 : D.UnmarshalCommand id body = none) :
    c.handleCommandPayload D E payload = (c, Status.ok) := by
  simp [Client.handleCommandPayload, h1, h2, h3]

theorem handleCommandPayload_decode_error (D : ClientDeps) (E : Env) (c : Client)
    (payload body : List Nat) (id : Nat) (e : String)
    (h1 : Uint16 payload = some id) (h2 : sliceFrom payload 2 = some body)
    (h3 : D.UnmarshalCommand id body = some (Except.error e)) :
    c.handleCommandPayload D E payload = (c, Status.err e) := by
  simp [Client.handleCommandPayload, h1, h2, h3]

theorem andThen_eq (r : Client × Status) (k : Client → Client × Status) :
    andThen r k = if r.2 = Status.ok then k r.1 else r := by
  unfold andThen
  split
  · rename_i h; simp [h]
  · rename_i h
    have : r.2 ≠ Status.ok := fun hh => h hh
    simp [this]

theorem andThen_return (r : Client × Status) :
    andThen r (fun c => (c, Status.ok)) = r := by
  obtain ⟨c, st⟩ := r
  cases st <;> rfl

theorem onReceive_original (D : ClientDeps) (E : Env) (hE : E.WF) (c : Client) (p : Packet)
    (hU : p.SubType = E.Original) :
    c.onReceive D E p =
      andThen ((c.onReceiveSetPeerID E p).onReceiveAck D E p) fun c2 =>
        c2.handleCommandPayload D E (p.Payload.getD []) := by
  have hd := hE.types_distinct
  simp at hd
  have h2 : E.Original ≠ E.Split := hd.2.1.1
  unfold Client.onReceive
  simp only [Client.onReceivePayload, Client.onReceiveSplit, hU, or_true, if_true, h2,
    if_false, andThen_return]

theorem parseLoop_after (D : ClientDeps) (E : Env) (c c1 : Client)
    (pre post : List (List Nat)) (d : List Nat)
    (hpre : Client.parseLoop D E pre c = (c1, LoopExit.drained)) :
    Client.parseLoop D E (pre ++ d :: post) c = Client.parseLoop D E (d :: post) c1 := by
  rw [parseLoop_append, hpre]

theorem parseLoop_handled (D : ClientDeps) (E : Env) (c c2 : Client)
    (post : List (List Nat)) (d : List Nat) (p : Packet) (st : Status)
    (hp : Parse E d = some (p, none)) (hr : c.onReceive D E p = (c2, st)) :
    Client.parseLoop D E (d :: post) c =
      if st = Status.ok then Client.parseLoop D E post c2
      else (c2, LoopExit.panicked post) := by
  simp only [Client.parseLoop, hp, hr]
  cases st <;> simp

/-- C14, amended. `parseLoop` parses and dispatches the queued datagrams in
order for as long as `Parse` and `onReceive` return no error. When the loop
has handled the datagrams `pre` without error and the next datagram `d` makes
`Parse` panic or return an error, or makes `onReceive` return an error or
panic, the loop panics there and the datagrams `post` behind `d` are never
read; only when `d` is parsed and handled without error does the loop go on
with `post`. Inside `onReceive`, `handleCommandPayload` returns no error and
leaves the client as it is for a command id that is not a case of its switch,
and returns the decoder's error for a listed id whose payload the decoder
rejects: for a packet with sub-type Original whose Ack was sent, the loop
goes on with `post` in the first case and panics in the second. -/
theorem parseLoop_stops_at_first_error (D : ClientDeps) (E : Env) (c c1 : Client)
    (pre post : List (List Nat)) (d : List Nat)
    (hpre : Client.parseLoop D E pre c = (c1, LoopExit.drained)) :
    (Parse E d = none →
      Client.parseLoop D E (pre ++ d :: post) c = (c1, LoopExit.panicked post)) ∧
    (∀ p msg, Parse E d = some (p, some msg) →
      Client.parseLoop D E (pre ++ d :: post) c = (c1, LoopExit.panicked post)) ∧
    (∀ p, Parse E d = some (p, none) → (c1.onReceive D E p).2 ≠ Status.ok →
      Client.parseLoop D E (pre ++ d :: post) c =
        ((c1.onReceive D E p).1, LoopExit.panicked post)) ∧
    (∀ p, Parse E d = some (p, none) → (c1.onReceive D E p).2 = Status.ok →
      Client.parseLoop D E (pre ++ d :: post) c =
        Client.parseLoop D E post (c1.onReceive D E p).1) ∧
    (∀ (c2 : Client) (payload body : List Nat) (id : Nat),
      Uint16 payload = some id → sliceFrom payload 2 = some body →
      D.UnmarshalCommand id body = none →
      c2.handleCommandPayload D E payload = (c2, Status.ok)) ∧
    (∀ (c2 : Client) (payload body : List Nat) (id : Nat) (e : String),
      Uint16 payload = some id → sliceFrom payload 2 = some body →
      D.UnmarshalCommand id body = some (Except.error e) →
      c2.handleCommandPayload D E payload = (c2, Status.err e)) ∧
    (E.WF → ∀ (p : Packet) (body : List Nat) (id : Nat),
      Parse E d = some (p, none) → p.SubType = E.Original →
      ((c1.onReceiveSetPeerID E p).onReceiveAck D E p).2 = Status.ok →
      Uint16 (p.Payload.getD []) = some id → sliceFrom (p.Payload.getD []) 2 = some body →
      (D.UnmarshalCommand id body = none →
        Client.parseLoop D E (pre ++ d :: post) c =
          Client.parseLoop D E post ((c1.onReceiveSetPeerID E p).onReceiveAck D E p).1) ∧
      (∀ e, D.UnmarshalCommand id body = some (Except.error e) →
        Client.parseLoop D E (pre ++ d :: post) c =
          (((c1.onReceiveSetPeerID E p).onReceiveAck D E p).1, LoopExit.panicked post))) := by
  rw [parseLoop_after D E c c1 pre post d hpre]
  refine ⟨fun h => ?_, fun p msg h => ?_, fun p h hs => ?_, fun p h hs => ?_,
    fun c2 payload body id h1 h2 h3 => handleCommandPayload_unknown D E c2 payload body id h1 h2 h3,
    fun c2 payload body id e h1 h2 h3 =>
      handleCommandPayload_decode_error D E c2 payload body id e h1 h2 h3,
    fun hE p body id h hU hack h1 h2 => ⟨fun h3 => ?_, fun e h3 => ?_⟩⟩
  · simp only [Client.parseLoop, h]
  · simp only [Client.parseLoop, h]
  · rw [parseLoop_handled D E c1 (c1.onReceive D E p).1 post d p (c1.onReceive D E p).2 h rfl,
      if_neg hs]
  · rw [parseLoop_handled D E c1 (c1.onReceive D E p).1 post d p (c1.onReceive D E p).2 h rfl,
      if_pos hs]
  · have hr : c1.onReceive D E p =
        (((c1.onReceiveSetPeerID E p).onReceiveAck D E p).1, Status.ok) := by
      rw [onReceive_original D E hE c1 p hU, andThen_eq, if_pos hack]
      exact handleCommandPayload_unknown D E _ _ body id h1 h2 h3
    rw [parseLoop_handled D E c1 _ post d p _ h hr, if_pos rfl]
  · have hr : c1.onReceive D E p =
        (((c1.onReceiveSetPeerID E p).onReceiveAck D E p).1, Status.err e) := by
      rw [onReceive_original D E hE c1 p hU, andThen_eq, if_pos hack]
      exact handleCommandPayload_decode_error D E _ _ body id e h1 h2 h3
    rw [parseLoop_handled D E c1 _ post d p _ h hr, if_neg (by simp)]

/-- Witness of C14 (amended): a datagram with a wrong marker in front of the
datagram that assigns the peer id. -/
theorem parseLoop_stops_at_first_error_witness :
    Client.parseLoop refDeps refEnv [] refClient = (refClient, LoopExit.drained) ∧
    Client.parseLoop refDeps refEnv
        ([] ++ [0, 0, 0, 0, 0, 1, 0, 3] ::
          [[0x4f, 0x45, 0x74, 0x03, 0, 1, 0, 3, 0xff, 0xdc, 0, 1, 1, 1]]) refClient =
      (refClient,
        LoopExit.panicked [[0x4f, 0x45, 0x74, 0x03, 0, 1, 0, 3, 0xff, 0xdc, 0, 1, 1, 1]]) ∧
    Client.parseLoop refDeps refEnv
        ([] ++ [0x4f, 0x45, 0x74, 0x03, 0, 1, 1, 3, 0, 5, 1, 0, 2, 1, 0] ::
          [[0x4f, 0x45, 0x74, 0x03, 0, 1, 0, 3, 0xff, 0xdc, 0, 1, 1, 1]]) refClient =
      Client.parseLoop refDeps refEnv
        [[0x4f, 0x45, 0x74, 0x03, 0, 1, 0, 3, 0xff, 0xdc, 0, 1, 1, 1]]
        ((refClient.onReceiveSetPeerID refEnv
            { Packet.zero with
              PacketType := 3, SubType := 1, PeerID := 1, SeqNr := 5, Channel := 1,
              CommandID := 2, Payload := some [1, 0],
              Command := some (Command.ServerHello true false) }).onReceiveAck refDeps refEnv
            { Packet.zero with
              PacketType := 3, SubType := 1, PeerID := 1, SeqNr := 5, Channel := 1,
              CommandID := 2, Payload := some [1, 0],
              Command := some (Command.ServerHello true false) }).1 :=
  ⟨rfl,
   (parseLoop_stops_at_first_error refDeps refEnv refClient refClient []
      [[0x4f, 0x45, 0x74, 0x03, 0, 1, 0, 3, 0xff, 0xdc, 0, 1, 1, 1]]
      [0, 0, 0, 0, 0, 1, 0, 3] rfl).2.1 Packet.zero "invalid protocol_id" (by decide),
   ((parseLoop_stops_at_first_error refDeps refEnv refClient refClient []
      [[0x4f, 0x45, 0x74, 0x03, 0, 1, 0, 3, 0xff, 0xdc, 0, 1, 1, 1]]
      [0x4f, 0x45, 0x74, 0x03, 0, 1, 1, 3, 0, 5, 1, 0, 2, 1, 0] rfl).2.2.2.2.2.2 refEnv_wf
      { Packet.zero with
        PacketType := 3, SubType := 1, PeerID := 1, SeqNr := 5, Channel := 1,
        CommandID := 2, Payload := some [1, 0],
        Command := some (Command.ServerHello true false) }
      [] 256 (by decide) rfl (by decide) rfl rfl).1 rfl⟩

/-- C15 (Stop), evaluated. Over a transport that rejects the write of the
Disconnect packet, `Stop` returns the write error and leaves both the channel
`netrx` and the connection open; over a transport that accepts it, `Stop`
closes both. -/
theorem stop_returns_before_closing :
    refClient.Stop failDeps refEnv =
      ({ refClient with
          writes := [[0x4f, 0x45, 0x74, 0x03, 0, 0, 0, 0, 3, 0, 0]],
          sends := [{ Packet.zero with
            PacketType := refEnv.Control, ControlType := refEnv.Disco, PeerID := 0 }] },
        Status.err "write: connection refused") ∧
    (refClient.Stop failDeps refEnv).1.netrxClosed = false ∧
    (refClient.Stop failDeps refEnv).1.connClosed = false ∧
    (refClient.Stop refDeps refEnv).2 = Status.ok ∧
    (refClient.Stop refDeps refEnv).1.netrxClosed = true ∧
    (refClient.Stop refDeps refEnv).1.connClosed = true := by
  refine ⟨?_, ?_, ?_, ?_, ?_, ?_⟩ <;> decide

/-! ## The stored peer id -/

theorem onReceive_peerID (D : ClientDeps) (E : Env) (c : Client) (p : Packet) :
    (c.onReceive D E p).1.PeerID =
      if (p.PacketType = E.Reliable ∨ p.PacketType = E.Original) ∧
          p.ControlType = E.SetPeerID
      then p.PeerID else c.PeerID := by
  show (andThen _ _).1.PeerID = _
  rw [(onReceive_tail_frame D E (c.onReceiveSetPeerID E p) p).1]
  unfold Client.onReceiveSetPeerID
  by_cases hT : p.PacketType = E.Reliable ∨ p.PacketType = E.Original
  · by_cases hC : p.ControlType = E.SetPeerID
    · simp [hT, hC, Client.emitCommand]
    · simp [hT, hC]
  · simp [hT]

theorem receiveAll_peerID (D : ClientDeps) (E : Env) (ps : List Packet) (c : Client) :
    (c.receiveAll D E ps).PeerID = lastAssigned E c.PeerID ps := by
  induction ps generalizing c with
  | nil => rfl
  | cons p ps ih =>
    have hstep : c.receiveAll D E (p :: ps) = (c.onReceive D E p).1.receiveAll D E ps := rfl
    rw [hstep, ih, onReceive_peerID]
    rfl

/-- C16, counterexample. Starting from `PeerID = 0`, after a
Reliable/Control/SetPeerID packet assigning 257 the stored peer id is 257, and
a second such packet assigning 258 changes it to 258. -/
theorem peerID_reassigned :
    refClient.PeerID = 0 ∧
    (refClient.receiveAll refDeps refEnv
      [{ Packet.zero with
          PeerID := 257, PacketType := 3, SeqNr := 65500, SubType := 0, ControlType := 1 }]).PeerID =
      257 ∧
    (refClient.receiveAll refDeps refEnv
      [{ Packet.zero with
          PeerID := 257, PacketType := 3, SeqNr := 65500, SubType := 0, ControlType := 1 },
       { Packet.zero with
          PeerID := 258, PacketType := 3, SeqNr := 65501, SubType := 0, ControlType := 1 }]).PeerID =
      258 := by
  refine ⟨?_, ?_, ?_⟩ <;> decide

/-- C16, amended. `onReceive` leaves the stored `PeerID` unchanged for every
packet whose control type is not SetPeerID, and for every packet whose packet
type is neither Reliable nor Original; every packet of type Reliable or
Original with control type SetPeerID sets `PeerID` to its own peer id, also
when a peer id was assigned before. After a sequence of packets `PeerID` is
therefore the peer id of the last such packet, and the initial value when
there is none. -/
theorem peerID_follows_last_assignment (D : ClientDeps) (E : Env) (c : Client)
    (ps : List Packet) :
    (c.receiveAll D E ps).PeerID = lastAssigned E c.PeerID ps ∧
    (∀ p : Packet, p.ControlType ≠ E.SetPeerID → (c.onReceive D E p).1.PeerID = c.PeerID) ∧
    (∀ p : Packet, p.PacketType ≠ E.Reliable → p.PacketType ≠ E.Original →
      (c.onReceive D E p).1.PeerID = c.PeerID) ∧
    (∀ p : Packet, (p.PacketType = E.Reliable ∨ p.PacketType = E.Original) →
      p.ControlType = E.SetPeerID → (c.onReceive D E p).1.PeerID = p.PeerID) ∧
    ((∀ p ∈ ps, p.ControlType ≠ E.SetPeerID) → (c.receiveAll D E ps).PeerID = c.PeerID) := by
  refine ⟨receiveAll_peerID D E ps c, fun p h => ?_, fun p h1 h2 => ?_, fun p h1 h2 => ?_,
    fun h => ?_⟩
  · rw [onReceive_peerID]; simp [h]
  · rw [onReceive_peerID]; simp [h1, h2]
  · rw [onReceive_peerID]; simp [h1, h2]
  · rw [receiveAll_peerID]
    generalize c.PeerID = init
    induction ps generalizing init with
    | nil => rfl
    | cons p ps ih =>
      have hp : p.ControlType ≠ E.SetPeerID := h p (List.mem_cons_self _ _)
      have hstep : lastAssigned E init (p :: ps) = lastAssigned E init ps := by
        simp [lastAssigned, hp]
      rw [hstep]
      exact ih (fun q hq => h q (List.mem_cons_of_mem _ hq)) init

/-- Witness of C16 (amended): two Reliable packets with an Original payload,
which carry no SetPeerID, leave the peer id of a client at 0. -/
theorem peerID_follows_last_assignment_witness :
    (refClient.receiveAll refDeps refEnv
      [{ Packet.zero with PacketType := 3, SubType := 1, SeqNr := 5, Payload := some [0, 2, 0, 0] },
       { Packet.zero with PacketType := 3, SubType := 1, SeqNr := 6, Payload := some [0, 2, 0, 0] }]).PeerID =
      refClient.PeerID :=
  (peerID_follows_last_assignment refDeps refEnv refClient
    [{ Packet.zero with PacketType := 3, SubType := 1, SeqNr := 5, Payload := some [0, 2, 0, 0] },
     { Packet.zero with PacketType := 3, SubType := 1, SeqNr := 6, Payload := some [0, 2, 0, 0] }]).2.2.2.2
    (by decide)


/-! ## The handshake secrets -/

/-- C17, counterexample. A handler that holds the ephemeral pair
`SRPPubA = a1 a2`, `SRPPrivA = 51 52` handles the server's challenge bytes and
sends the Ack and the proof command; afterwards it still holds both values. -/
theorem srp_secrets_kept_after_proof :
    sentPackets (srpHandler.OnPacketReceive refWorld refEnv
      { Packet.zero with
        PacketType := 3, SubType := 1, PeerID := 1, SeqNr := 7, Channel := 1,
        CommandID := 0x60, Payload := some [1, 2],
        Command := some (Command.ServerSRPBytesSB [1] [2]) }).trace =
      [CreateControl refEnv 257 7 refEnv.Ack,
       CreateReliable refEnv 257 0 (Command.ClientSRPBytesM [0x4d])] ∧
    (srpHandler.OnPacketReceive refWorld refEnv
      { Packet.zero with
        PacketType := 3, SubType := 1, PeerID := 1, SeqNr := 7, Channel := 1,
        CommandID := 0x60, Payload := some [1, 2],
        Command := some (Command.ServerSRPBytesSB [1] [2]) }).ch.SRPPubA = [0xa1, 0xa2] ∧
    (srpHandler.OnPacketReceive refWorld refEnv
      { Packet.zero with
        PacketType := 3, SubType := 1, PeerID := 1, SeqNr := 7, Channel := 1,
        CommandID := 0x60, Payload := some [1, 2],
        Command := some (Command.ServerSRPBytesSB [1] [2]) }).ch.SRPPrivA = [0x51, 0x52] := by
  refine ⟨?_, ?_, ?_⟩ <;> decide

/-- C17, amended. For the server's challenge bytes in a Reliable packet that
is not a Split packet, when the sends and `CompleteHandshake` succeed: the
handler calls `CompleteHandshake` with its stored `SRPPubA` and `SRPPrivA`,
sends the Ack and then the proof command, and afterwards `SRPPubA` and
`SRPPrivA` hold the same values as before: the handler keeps the ephemeral
pair. -/
theorem srp_secrets_unchanged (W : World) (E : Env) (hE : E.WF) (ch : ClientHandler)
    (p : Packet) (bytesS bytesB : List Nat)
    (hT : p.PacketType = E.Reliable) (hU : p.SubType ≠ E.Split)
    (hI : p.CommandID = E.ServerCommandSRPBytesSB)
    (hc : p.Command = some (Command.ServerSRPBytesSB bytesS bytesB))
    (hsend : ∀ tr q, W.Send tr q = none)
    (hcomplete : (W.CompleteHandshake ch.SRPPubA ch.SRPPrivA ch.Username ch.Password
      bytesS bytesB).2 = none) :
    (ch.OnPacketReceive W E p).panicked = none ∧
    sentPackets (ch.OnPacketReceive W E p).trace =
      [CreateControl E (if p.ControlType = E.SetPeerID then p.PeerID else ch.peerID)
          p.SeqNr E.Ack,
       CreateReliable E (if p.ControlType = E.SetPeerID then p.PeerID else ch.peerID) 0
          (Command.ClientSRPBytesM
            (W.ClientProof ch.Username bytesS ch.SRPPubA bytesB
              (W.CompleteHandshake ch.SRPPubA ch.SRPPrivA ch.Username ch.Password
                bytesS bytesB).1))] ∧
    srpCalls (ch.OnPacketReceive W E p).trace =
      [Effect.CompleteHandshake ch.SRPPubA ch.SRPPrivA ch.Username ch.Password bytesS bytesB,
       Effect.ClientProof ch.Username bytesS ch.SRPPubA bytesB
        (W.CompleteHandshake ch.SRPPubA ch.SRPPrivA ch.Username ch.Password
          bytesS bytesB).1] ∧
    (ch.OnPacketReceive W E p).ch.SRPPubA = ch.SRPPubA ∧
    (ch.OnPacketReceive W E p).ch.SRPPrivA = ch.SRPPrivA := by
  have hd := hE.ids_distinct
  simp at hd
  have h1 : E.ServerCommandSRPBytesSB ≠ E.ServerCommandHello := fun h => hd.1.2 h.symm
  have h2 : E.ServerCommandSRPBytesSB ≠ E.ServerCommandAuthAccept := fun h => hd.2 h.symm
  by_cases hs : p.ControlType = E.SetPeerID <;>
  simp [ClientHandler.OnPacketReceive, onSetPeerID, sendOrPanic, Run.andThen, onHello,
    onSRPBytesSB, onAuthAccept, sentPackets, srpCalls,
    hT, hU, hI, hc, hsend, hcomplete, hs, h1, h2]

/-- Witness of C17 (amended) on the reference constants. -/
theorem srp_secrets_unchanged_witness :
    refEnv.WF ∧
    (srpHandler.OnPacketReceive refWorld refEnv
      { Packet.zero with
        PacketType := 3, SubType := 1, PeerID := 1, SeqNr := 7, Channel := 1,
        CommandID := 0x60, Payload := some [1, 2],
        Command := some (Command.ServerSRPBytesSB [1] [2]) }).ch.SRPPrivA =
      srpHandler.SRPPrivA :=
  ⟨refEnv_wf,
   (srp_secrets_unchanged refWorld refEnv refEnv_wf srpHandler
      { Packet.zero with
        PacketType := 3, SubType := 1, PeerID := 1, SeqNr := 7, Channel := 1,
        CommandID := 0x60, Payload := some [1, 2],
        Command := some (Command.ServerSRPBytesSB [1] [2]) }
      [1] [2] rfl (by decide) rfl rfl (fun _ _ => rfl) rfl).2.2.2.2⟩



/-! ## The client-init command -/

theorem clientInit_marshal (c : ClientInit) :
    c.MarshalPacket =
      some ([byte (c.MaxNetProtoVersion / 256), byte c.MaxNetProtoVersion, 0, 0, 0, 0, 0,
          byteOfInt c.ClientMax, 0, byte c.PlayerName.length] ++ c.PlayerName, none) := by
  simp [ClientInit.MarshalPacket, make, PutUint16, List.replicate]

/-- C18, counterexample. The client-init value for player "test" encodes to
fourteen bytes; `UnmarshalPacket` applied to them on a fresh `ClientInit`
succeeds and leaves the fresh value as it is, which is not the value that was
encoded. -/
theorem clientInit_roundtrip_fails :
    (NewClientInit [116, 101, 115, 116]).MarshalPacket =
      some ([0, 39, 0, 0, 0, 0, 0, 28, 0, 4, 116, 101, 115, 116], none) ∧
    ClientInit.zero.UnmarshalPacket [0, 39, 0, 0, 0, 0, 0, 28, 0, 4, 116, 101, 115, 116] =
      (ClientInit.zero, none) ∧
    ClientInit.zero ≠ NewClientInit [116, 101, 115, 116] := by
  refine ⟨?_, ?_, ?_⟩ <;> decide

/-- C18, amended. For every `ClientInit` value `c`, `MarshalPacket` returns
bytes without error, and `UnmarshalPacket` applied to these bytes on a fresh
`ClientInit` succeeds; it ignores its argument and leaves its receiver as it
is, so the result is the fresh zero value, which equals `c` exactly when `c`
is the zero value itself. -/
theorem clientInit_unmarshal_ignores_input (c : ClientInit) :
    (∃ bytes, c.MarshalPacket = some (bytes, none) ∧
      ClientInit.zero.UnmarshalPacket bytes = (ClientInit.zero, none) ∧
      ((ClientInit.zero.UnmarshalPacket bytes).1 = c ↔ c = ClientInit.zero)) ∧
    ∀ (p : ClientInit) (data : List Nat), p.UnmarshalPacket data = (p, none) := by
  refine ⟨⟨_, clientInit_marshal c, rfl, ?_⟩, fun _ _ => rfl⟩
  simp only [ClientInit.UnmarshalPacket]
  exact eq_comm

/-- C20 (client-init layout), evaluated. For the client-init value of player
"test" (`ClientMax` 28, compression modes 0, protocol versions 37 to 39)
`MarshalPacket` returns fourteen bytes, not thirteen: the maximum protocol
version at offsets 0-1, five zero bytes, `ClientMax` at offset 7, then a zero
byte, the low byte of the name length and the name. For every value the output
has this shape, of length `10 + len(PlayerName)`; the compression modes and
the minimum protocol version do not occur in it, so two values that differ
only there encode alike. -/
theorem clientInit_layout_broken :
    (NewClientInit [116, 101, 115, 116]).MarshalPacket =
      some ([0, 39, 0, 0, 0, 0, 0, 28, 0, 4, 116, 101, 115, 116], none) ∧
    ([0, 39, 0, 0, 0, 0, 0, 28, 0, 4, 116, 101, 115, 116] : List Nat).length = 14 ∧
    (∀ c : ClientInit,
      c.MarshalPacket =
        some ([byte (c.MaxNetProtoVersion / 256), byte c.MaxNetProtoVersion, 0, 0, 0, 0, 0,
            byteOfInt c.ClientMax, 0, byte c.PlayerName.length] ++ c.PlayerName, none)) ∧
    (∀ c : ClientInit, ∃ bytes, c.MarshalPacket = some (bytes, none) ∧
      bytes.length = 10 + c.PlayerName.length) ∧
    ({ NewClientInit [116, 101, 115, 116] with
        SupportedCompressionModes := 1, MinNetProtoVersion := 38 } : ClientInit).MarshalPacket =
      (NewClientInit [116, 101, 115, 116]).MarshalPacket := by
  refine ⟨by decide, by decide, clientInit_marshal, fun c => ?_, by decide⟩
  exact ⟨_, clientInit_marshal c, by simp; omega⟩



/-! ## Sending commands -/

theorem send_log (D : ClientDeps) (E : Env) (c : Client) (p : Packet) :
    (c.Send D E p).1.sends = c.sends ++ [p] ∧ (c.Send D E p).1.seqNr = c.seqNr ∧
    (c.Send D E p).1.PeerID = c.PeerID := by
  unfold Client.Send
  dsimp only
  split
  · simp
  · simp
  · split <;> simp

theorem sendFragments_cons (D : ClientDeps) (E : Env) (pkg : Packet) (rest : List Packet)
    (c : Client) :
    Client.sendFragments D E (pkg :: rest) c =
      andThen (({ c with seqNr := (D.NextSequenceNr c.seqNr).2 } : Client).Send D E
          { pkg with PeerID := c.PeerID, Channel := 1, SeqNr := (D.NextSequenceNr c.seqNr).1 })
        fun c1 => Client.sendFragments D E rest c1 := rfl

theorem sendFragments_log (D : ClientDeps) (E : Env) (pkgs : List Packet) (c : Client) :
    ∃ k, k ≤ pkgs.length ∧
      (Client.sendFragments D E pkgs c).1.sends =
        c.sends ++ (stamped D c.PeerID c.seqNr pkgs).take k ∧
      ((Client.sendFragments D E pkgs c).2 = Status.ok → k = pkgs.length) ∧
      ((Client.sendFragments D E pkgs c).2 ≠ Status.ok →
        0 < k ∧ ∃ (c1 : Client) (pk : Packet), (stamped D c.PeerID c.seqNr pkgs)[k - 1]? = some pk ∧
          c1.Send D E pk = Client.sendFragments D E pkgs c) := by
  induction pkgs generalizing c with
  | nil =>
    exact ⟨0, le_refl _, by simp [Client.sendFragments, stamped], fun _ => rfl,
      fun h => absurd rfl h⟩
  | cons pkg rest ih =>
    rw [sendFragments_cons, andThen_eq]
    have hl := send_log D E ({ c with seqNr := (D.NextSequenceNr c.seqNr).2 } : Client)
      { pkg with PeerID := c.PeerID, Channel := 1, SeqNr := (D.NextSequenceNr c.seqNr).1 }
    by_cases hok : (({ c with seqNr := (D.NextSequenceNr c.seqNr).2 } : Client).Send D E
        { pkg with PeerID := c.PeerID, Channel := 1,
                   SeqNr := (D.NextSequenceNr c.seqNr).1 }).2 = Status.ok
    · rw [if_pos hok]
      obtain ⟨k, hk, hs, hfin, hfail⟩ := ih
        (({ c with seqNr := (D.NextSequenceNr c.seqNr).2 } : Client).Send D E
          { pkg with PeerID := c.PeerID, Channel := 1,
                     SeqNr := (D.NextSequenceNr c.seqNr).1 }).1
      rw [hl.1, hl.2.1, hl.2.2] at hs
      rw [hl.2.1, hl.2.2] at hfail
      refine ⟨k + 1, by simp; omega, ?_, fun h => by simp [hfin h], fun h => ?_⟩
      · rw [hs]
        simp [stamped]
      · obtain ⟨hpos, c1, pk, hidx, hsend⟩ := hfail h
        refine ⟨by omega, c1, pk, ?_, hsend⟩
        obtain ⟨j, rfl⟩ : ∃ j, k = j + 1 := ⟨k - 1, by omega⟩
        simpa [stamped] using hidx
    · rw [if_neg hok]
      refine ⟨1, by simp, ?_, fun h => absurd h hok, fun _ => ⟨by omega, _, _, ?_, rfl⟩⟩
      · rw [hl.1]
        simp [stamped]
      · simp [stamped]

theorem stamped_fields (D : ClientDeps) (peer : Nat) (pkgs : List Packet) (counter : Nat) :
    ∀ q ∈ stamped D peer counter pkgs, q.PeerID = peer ∧ q.Channel = 1 := by
  induction pkgs generalizing counter with
  | nil => simp [stamped]
  | cons pkg rest ih =>
    intro q hq
    simp only [stamped, List.mem_cons] at hq
    rcases hq with rfl | hq
    · exact ⟨rfl, rfl⟩
    · exact ih _ q hq

theorem sendFragment_log (D : ClientDeps) (E : Env) (c : Client) (pkg : Packet) :
    (c.sendFragment D E pkg).1.sends =
      c.sends ++ [{ pkg with PeerID := c.PeerID, Channel := 1,
                             SeqNr := (D.NextSequenceNr c.seqNr).1 }] ∧
    (c.sendFragment D E pkg).1.seqNr = (D.NextSequenceNr c.seqNr).2 ∧
    (c.sendFragment D E pkg).1.PeerID = c.PeerID := by
  have h := send_log D E ({ c with seqNr := (D.NextSequenceNr c.seqNr).2 } : Client)
    { pkg with PeerID := c.PeerID, Channel := 1, SeqNr := (D.NextSequenceNr c.seqNr).1 }
  exact h

theorem sendFragments_step (D : ClientDeps) (E : Env) (pkg : Packet) (rest : List Packet)
    (c : Client) :
    Client.sendFragments D E (pkg :: rest) c =
      if (c.sendFragment D E pkg).2 = Status.ok then
        Client.sendFragments D E rest (c.sendFragment D E pkg).1
      else c.sendFragment D E pkg := by
  rw [sendFragments_cons, andThen_eq]
  rfl

theorem beforeFragment_log (D : ClientDeps) (E : Env) (pkgs : List Packet) (i : Nat)
    (c : Client) (hi : i ≤ pkgs.length) :
    (Client.beforeFragment D E pkgs i c).sends =
      c.sends ++ (stamped D c.PeerID c.seqNr pkgs).take i ∧
    (Client.beforeFragment D E pkgs i c).PeerID = c.PeerID := by
  induction pkgs generalizing i c with
  | nil =>
    cases i with
    | zero => simp [Client.beforeFragment]
    | succ i => simp at hi
  | cons pkg rest ih =>
    cases i with
    | zero => simp [Client.beforeFragment]
    | succ i =>
      have hl := sendFragment_log D E c pkg
      have h := ih i (c.sendFragment D E pkg).1 (by simpa using hi)
      rw [hl.1, hl.2.1, hl.2.2] at h
      simp only [Client.beforeFragment]
      refine ⟨?_, h.2⟩
      rw [h.1]
      simp [stamped]

theorem beforeFragment_succ (D : ClientDeps) (E : Env) (pkgs : List Packet) (j : Nat)
    (c : Client) (pkg : Packet) (hj : pkgs[j]? = some pkg) :
    ((Client.beforeFragment D E pkgs j c).sendFragment D E pkg).1 =
      Client.beforeFragment D E pkgs (j + 1) c := by
  induction pkgs generalizing j c with
  | nil => simp at hj
  | cons p0 rest ih =>
    cases j with
    | zero =>
      simp at hj
      subst hj
      simp [Client.beforeFragment]
    | succ j =>
      simp at hj
      simp only [Client.beforeFragment]
      exact ih j _ hj

theorem sendFragments_all_ok (D : ClientDeps) (E : Env) (pkgs : List Packet) (c : Client)
    (hall : ∀ i pkg, pkgs[i]? = some pkg →
      ((Client.beforeFragment D E pkgs i c).sendFragment D E pkg).2 = Status.ok) :
    Client.sendFragments D E pkgs c =
      (Client.beforeFragment D E pkgs pkgs.length c, Status.ok) := by
  induction pkgs generalizing c with
  | nil => rfl
  | cons p0 rest ih =>
    have h0 : (c.sendFragment D E p0).2 = Status.ok := hall 0 p0 (by simp)
    rw [sendFragments_step, if_pos h0]
    have := ih (c.sendFragment D E p0).1 (fun i pkg hi => hall (i + 1) pkg (by simpa using hi))
    rw [this]
    rfl

theorem sendFragments_first_failure (D : ClientDeps) (E : Env) (pkgs : List Packet)
    (c : Client) (j : Nat) (pkg : Packet) (hj : pkgs[j]? = some pkg)
    (hbefore : ∀ i q, i < j → pkgs[i]? = some q →
      ((Client.beforeFragment D E pkgs i c).sendFragment D E q).2 = Status.ok)
    (hfail : ((Client.beforeFragment D E pkgs j c).sendFragment D E pkg).2 ≠ Status.ok) :
    Client.sendFragments D E pkgs c =
      (Client.beforeFragment D E pkgs j c).sendFragment D E pkg := by
  induction pkgs generalizing j c with
  | nil => simp at hj
  | cons p0 rest ih =>
    cases j with
    | zero =>
      simp at hj
      subst hj
      rw [sendFragments_step]
      simp only [Client.beforeFragment] at hfail ⊢
      rw [if_neg hfail]
    | succ j =>
      simp at hj
      have h0 : (c.sendFragment D E p0).2 = Status.ok := hbefore 0 p0 (by omega) (by simp)
      rw [sendFragments_step, if_pos h0]
      simp only [Client.beforeFragment] at hfail ⊢
      exact ih (c.sendFragment D E p0).1 j hj
        (fun i q hi hq => hbefore (i + 1) q (by omega) (by simpa using hq)) hfail


theorem stamped_length (D : ClientDeps) (peer : Nat) (pkgs : List Packet) (counter : Nat) :
    (stamped D peer counter pkgs).length = pkgs.length := by
  induction pkgs generalizing counter with
  | nil => rfl
  | cons p0 rest ih => simp [stamped, ih]

theorem sendFragments_dichotomy (D : ClientDeps) (E : Env) (pkgs : List Packet) (c : Client) :
    (∀ i pkg, pkgs[i]? = some pkg →
      ((Client.beforeFragment D E pkgs i c).sendFragment D E pkg).2 = Status.ok) ∨
    ∃ j pkg, pkgs[j]? = some pkg ∧
      (∀ i q, i < j → pkgs[i]? = some q →
        ((Client.beforeFragment D E pkgs i c).sendFragment D E q).2 = Status.ok) ∧
      ((Client.beforeFragment D E pkgs j c).sendFragment D E pkg).2 ≠ Status.ok := by
  induction pkgs generalizing c with
  | nil => exact Or.inl (fun i pkg hi => by simp at hi)
  | cons p0 rest ih =>
    by_cases h0 : (c.sendFragment D E p0).2 = Status.ok
    · rcases ih (c.sendFragment D E p0).1 with hall | ⟨j, pkg, hj, hbefore, hfail⟩
      · refine Or.inl (fun i pkg hi => ?_)
        cases i with
        | zero =>
          simp at hi
          subst hi
          exact h0
        | succ i =>
          simp at hi
          exact hall i pkg hi
      · refine Or.inr ⟨j + 1, pkg, by simpa using hj, fun i q hi hq => ?_, hfail⟩
        cases i with
        | zero =>
          simp at hq
          subst hq
          exact h0
        | succ i =>
          simp at hq
          exact hbefore i q (by omega) hq
    · exact Or.inr ⟨0, p0, by simp, fun i q hi _ => absurd hi (by omega), h0⟩

/-- C19, counterexample. With maximum packet length 495, a command whose
encoded payload is exactly 495 bytes long does not exceed the maximum, and
`SendCommand` does not send it as a single Reliable packet: it hands the
payload to the split handler and sends the Split fragment, stamped with peer
id, channel 1 and the next sequence number. -/
theorem sendCommand_at_maximum_is_split :
    refDeps.CreatePayload (Command.Other 0 (List.replicate 493 0)) =
      Except.ok ([0, 0] ++ List.replicate 493 0) ∧
    ([0, 0] ++ List.replicate 493 0 : List Nat).length = refDeps.MaxPacketLength ∧
    (refClient.SendCommand refDeps refEnv (Command.Other 0 (List.replicate 493 0))).1.sends =
      [{ Packet.zero with
          PacketType := refEnv.Reliable, SubType := refEnv.Split,
          Command := some (Command.Other 0 ([0, 0] ++ List.replicate 493 0)),
          PeerID := 0, Channel := 1, SeqNr := 0 }] := by
  have hl : ([0, 0] ++ List.replicate 493 0 : List Nat).length = 495 := by
    rw [List.length_append, List.length_replicate]
    rfl
  refine ⟨rfl, hl, ?_⟩
  have hp : refDeps.CreatePayload (Command.Other 0 (List.replicate 493 0)) =
      Except.ok ([0, 0] ++ List.replicate 493 0) := rfl
  have hlen : ¬ ([0, 0] ++ List.replicate 493 0 : List Nat).length < refDeps.MaxPacketLength := by
    rw [hl]
    exact Nat.lt_irrefl 495
  have hsplit : refDeps.SplitPayload ([0, 0] ++ List.replicate 493 0) =
      Except.ok [{ Packet.zero with
        PacketType := refEnv.Reliable, SubType := refEnv.Split,
        Command := some (Command.Other 0 ([0, 0] ++ List.replicate 493 0)) }] := rfl
  unfold Client.SendCommand
  rw [hp]
  simp only [hlen, if_false, hsplit]
  rw [sendFragments_cons, andThen_eq]
  split
  · rw [Client.sendFragments, (send_log _ _ _ _).1]
    rfl
  · rw [(send_log _ _ _ _).1]
    rfl

/-- C19, amended. For a command whose payload `CreatePayload` encodes without
error: when the payload is shorter than `MaxPacketLength`, `SendCommand` is
the single call `Send(CreateReliable(c.PeerID, payload))`. When it is at least
`MaxPacketLength` long, `SendCommand` returns the error of the split handler
if there is one, and otherwise runs through the fragments `pkgs` in order: in
pass `i` it hands fragment `i` to `Send`, with the client's peer id, channel 1
and its own next value of the sequencer. When every pass returns no error, all
fragments have been handed to `Send` and `SendCommand` returns no error. When
pass `j` is the first whose `Send` fails (all passes before it returned no
error), `SendCommand` returns exactly what that call of `Send` returned, and
the packets handed to `Send` are the first `j + 1` fragments: no fragment
behind the failed one is sent. One of the two cases always holds. -/
theorem sendCommand_single_or_split (D : ClientDeps) (E : Env) (c : Client) (cmd : Command)
    (payload : List Nat) (hp : D.CreatePayload cmd = Except.ok payload) :
    (payload.length < D.MaxPacketLength →
      c.SendCommand D E cmd = c.Send D E (D.CreateReliable c.PeerID payload) ∧
      (c.SendCommand D E cmd).1.sends = c.sends ++ [D.CreateReliable c.PeerID payload]) ∧
    (D.MaxPacketLength ≤ payload.length →
      (∀ e, D.SplitPayload payload = Except.error e →
        c.SendCommand D E cmd = (c, Status.err e)) ∧
      ∀ pkgs, D.SplitPayload payload = Except.ok pkgs →
        (∀ q ∈ stamped D c.PeerID c.seqNr pkgs, q.PeerID = c.PeerID ∧ q.Channel = 1) ∧
        (∀ i, i ≤ pkgs.length →
          (Client.beforeFragment D E pkgs i c).sends =
            c.sends ++ (stamped D c.PeerID c.seqNr pkgs).take i) ∧
        (∀ i pkg, pkgs[i]? = some pkg →
          ((Client.beforeFragment D E pkgs i c).sendFragment D E pkg).1.sends =
            c.sends ++ (stamped D c.PeerID c.seqNr pkgs).take (i + 1)) ∧
        ((∀ i pkg, pkgs[i]? = some pkg →
            ((Client.beforeFragment D E pkgs i c).sendFragment D E pkg).2 = Status.ok) →
          c.SendCommand D E cmd =
            (Client.beforeFragment D E pkgs pkgs.length c, Status.ok) ∧
          (c.SendCommand D E cmd).1.sends = c.sends ++ stamped D c.PeerID c.seqNr pkgs) ∧
        (∀ j pkg, pkgs[j]? = some pkg →
          (∀ i q, i < j → pkgs[i]? = some q →
            ((Client.beforeFragment D E pkgs i c).sendFragment D E q).2 = Status.ok) →
          ((Client.beforeFragment D E pkgs j c).sendFragment D E pkg).2 ≠ Status.ok →
          c.SendCommand D E cmd =
            (Client.beforeFragment D E pkgs j c).sendFragment D E pkg ∧
          (c.SendCommand D E cmd).2 ≠ Status.ok ∧
          (c.SendCommand D E cmd).1.sends =
            c.sends ++ (stamped D c.PeerID c.seqNr pkgs).take (j + 1)) ∧
        ((∀ i pkg, pkgs[i]? = some pkg →
            ((Client.beforeFragment D E pkgs i c).sendFragment D E pkg).2 = Status.ok) ∨
          ∃ j pkg, pkgs[j]? = some pkg ∧
            (∀ i q, i < j → pkgs[i]? = some q →
              ((Client.beforeFragment D E pkgs i c).sendFragment D E q).2 = Status.ok) ∧
            ((Client.beforeFragment D E pkgs j c).sendFragment D E pkg).2 ≠ Status.ok)) := by
  refine ⟨fun hlt => ?_, fun hge => ⟨fun e he => ?_, fun pkgs hs => ?_⟩⟩
  · have h : c.SendCommand D E cmd = c.Send D E (D.CreateReliable c.PeerID payload) := by
      unfold Client.SendCommand
      rw [hp]
      simp only [hlt, if_true]
    exact ⟨h, by rw [h, (send_log D E c _).1]⟩
  · unfold Client.SendCommand
    rw [hp]
    simp only [Nat.not_lt.mpr hge, if_false, he]
  · have h : c.SendCommand D E cmd = Client.sendFragments D E pkgs c := by
      unfold Client.SendCommand
      rw [hp]
      simp only [Nat.not_lt.mpr hge, if_false, hs]
    have hlen : (stamped D c.PeerID c.seqNr pkgs).length = pkgs.length :=
      stamped_length D c.PeerID pkgs c.seqNr
    have hpass : ∀ i pkg, pkgs[i]? = some pkg →
        ((Client.beforeFragment D E pkgs i c).sendFragment D E pkg).1.sends =
          c.sends ++ (stamped D c.PeerID c.seqNr pkgs).take (i + 1) := by
      intro i pkg hi
      have hlt : i < pkgs.length := by
        by_contra hn
        rw [List.getElem?_eq_none (by omega)] at hi
        cases hi
      rw [beforeFragment_succ D E pkgs i c pkg hi]
      exact (beforeFragment_log D E pkgs (i + 1) c (by omega)).1
    refine ⟨stamped_fields D c.PeerID pkgs c.seqNr,
      fun i hi => (beforeFragment_log D E pkgs i c hi).1, hpass, fun hall => ?_,
      fun j pkg hj hbefore hfail => ?_, sendFragments_dichotomy D E pkgs c⟩
    · have hr := sendFragments_all_ok D E pkgs c hall
      refine ⟨h.trans hr, ?_⟩
      rw [h, hr]
      have hb := (beforeFragment_log D E pkgs pkgs.length c (le_refl _)).1
      rw [hb, List.take_of_length_le (by omega)]
    · have hr := sendFragments_first_failure D E pkgs c j pkg hj hbefore hfail
      refine ⟨h.trans hr, ?_, ?_⟩
      · rw [h, hr]
        exact hfail
      · rw [h, hr]
        exact hpass j pkg hj

/-- Witness of C19 (amended): a six-byte payload goes out as one Reliable
packet. -/
theorem sendCommand_single_or_split_witness :
    refDeps.CreatePayload (Command.Other 0x11 [1, 2, 3, 4]) =
      Except.ok [0, 0x11, 1, 2, 3, 4] ∧
    (refClient.SendCommand refDeps refEnv (Command.Other 0x11 [1, 2, 3, 4])).1.sends =
      refClient.sends ++ [refDeps.CreateReliable refClient.PeerID [0, 0x11, 1, 2, 3, 4]] :=
  ⟨rfl,
   ((sendCommand_single_or_split refDeps refEnv refClient (Command.Other 0x11 [1, 2, 3, 4])
      [0, 0x11, 1, 2, 3, 4] rfl).1 (by decide)).2⟩

end Minetest
